import Mathlib

/-!
Verification development for the multi-view renderer pool of the
`home-banner-vis-bridge` adapter.

The definitions below are a shallow embedding of the JavaScript sources:

* `src/lib/renderer.js` — `_sha1Hex`, `_cacheBustedUrl`, `_ViewSession`
  (constructor, `setView`, `subscribe`, `unsubscribe`, `touchHttp`,
  `wanted`, `tick`, `closePage`, `_goto`, `_reload`, `_capturePng`, the
  publish/backoff tail of `_loop`) and `RendererPool` (constructor,
  `_activeViewIds`, `_canActivate`, `_busyFpsToMinIntervalMs`,
  `_ensureSession`, `subscribe`, `unsubscribe`, `touchHttp`, `tick`,
  `_closeBrowser`, `getFrame`).
* `src/main.js` — `_pendingMark`, `_activeViewsNow`, `_canActivateNow`,
  `_viewCfg`, `_onHttpFrameRequest`, `_waitForFrame`, the cold-start
  waiter resolution of `_onFrame`.
* `src/lib/config.js` — the clamping behaviour is reflected through the
  hypotheses `1 ≤ maxActiveViews` used by the validity-dependent theorems.

Conventions: JavaScript millisecond timestamps and durations are natural
numbers.  `Date.now()` is threaded explicitly as a `now` argument, and the
asynchronous JavaScript methods are modelled as atomic state transformers
(the adapter runs on a single-threaded event loop).  JavaScript real
subtraction `now - last ≤ grace` agrees with truncated `Nat` subtraction
whenever `last ≤ now`, and both sides are true when `now < last`, so `Nat`
subtraction is a faithful translation for non-negative `grace`.
-/

/-! ## SHA-1 (the algorithm behind node:crypto's `createHash("sha1")`,
used by `_sha1Hex` in src/lib/renderer.js).  Bytes are naturals; producers
reduce modulo 256 where the byte width matters. -/

/-- 2 to the 32nd power: the word modulus of SHA-1 arithmetic. -/
def w32 : ℕ := 4294967296

/-- Rotate a 32-bit word (a natural below `w32`) left by `n` bits. -/
def rotl32 (n x : ℕ) : ℕ := ((x <<< n) % w32) ||| (x >>> (32 - n))

/-- Big-endian byte expansion of `n` into `k` bytes. -/
def bytesBE : ℕ → ℕ → List ℕ
  | 0, _ => []
  | k + 1, n => bytesBE k (n / 256) ++ [n % 256]

/-- Pack a byte list into big-endian 32-bit words (dropping a ragged tail,
which never occurs on padded input). -/
def wordsOfBytes : List ℕ → List ℕ
  | b0 :: b1 :: b2 :: b3 :: rest =>
      ((b0 % 256) * 16777216 + (b1 % 256) * 65536 + (b2 % 256) * 256 + b3 % 256)
        :: wordsOfBytes rest
  | _ => []

/-- SHA-1 message schedule: extend 16 words to 80. -/
def sha1ExtendWords (w16 : Array ℕ) : Array ℕ :=
  (List.range 64).foldl
    (fun w i =>
      w.push (rotl32 1 ((w.getD (i + 13) 0) ^^^ (w.getD (i + 8) 0) ^^^
        (w.getD (i + 2) 0) ^^^ (w.getD i 0))))
    w16

/-- SHA-1 round function. -/
def sha1F (t b c d : ℕ) : ℕ :=
  if t < 20 then (b &&& c) ||| (((w32 - 1) ^^^ b) &&& d)
  else if t < 40 then b ^^^ c ^^^ d
  else if t < 60 then (b &&& c) ||| (b &&& d) ||| (c &&& d)
  else b ^^^ c ^^^ d

/-- SHA-1 round constants. -/
def sha1K (t : ℕ) : ℕ :=
  if t < 20 then 1518500249
  else if t < 40 then 1859775393
  else if t < 60 then 2400959708
  else 3395469782

/-- Compress one 64-byte block into the running hash state. -/
def sha1Block (block : List ℕ) (h : ℕ × ℕ × ℕ × ℕ × ℕ) : ℕ × ℕ × ℕ × ℕ × ℕ :=
  let w := sha1ExtendWords (wordsOfBytes block).toArray
  let step := fun (st : ℕ × ℕ × ℕ × ℕ × ℕ) (t : ℕ) =>
    let (a, b, c, d, e) := st
    let tmp := (rotl32 5 a + sha1F t b c d + e + sha1K t + w.getD t 0) % w32
    (tmp, a, rotl32 30 b, c, d)
  let (h0, h1, h2, h3, h4) := h
  let (a, b, c, d, e) := (List.range 80).foldl step (h0, h1, h2, h3, h4)
  ((h0 + a) % w32, (h1 + b) % w32, (h2 + c) % w32, (h3 + d) % w32, (h4 + e) % w32)

/-- SHA-1 padding: a 0x80 byte, zeros to 56 mod 64, then the 64-bit
big-endian bit length. -/
def sha1Pad (msg : List ℕ) : List ℕ :=
  let pz := (55 + 64 - msg.length % 64) % 64
  msg ++ 128 :: List.replicate pz 0 ++ bytesBE 8 (8 * msg.length)

/-- Fold `sha1Block` over successive 64-byte chunks; `fuel` bounds the
number of chunks (any value at least the byte count works). -/
def sha1Blocks : ℕ → List ℕ → ℕ × ℕ × ℕ × ℕ × ℕ → ℕ × ℕ × ℕ × ℕ × ℕ
  | 0, _, h => h
  | _ + 1, [], h => h
  | fuel + 1, bytes, h => sha1Blocks fuel (bytes.drop 64) (sha1Block (bytes.take 64) h)

/-- Lowercase hexadecimal digit of `n < 16`: code 48 carries 0-9 onto the
digit characters, code 87 carries 10-15 onto the letters a-f. -/
def hexDigit (n : ℕ) : Char :=
  if n < 10 then Char.ofNat (48 + n) else Char.ofNat (87 + n % 16)

/-- Two lowercase hex digits of one byte. -/
def hexByte (b : ℕ) : List Char := [hexDigit (b % 256 / 16), hexDigit (b % 16)]

/-- Lowercase SHA-1 hex digest of a byte list: the embedding of `_sha1Hex`
(src/lib/renderer.js line 7), whose node:crypto call implements this
FIPS 180-4 computation with `digest("hex")` producing lowercase hex. -/
def sha1Hex (msg : List ℕ) : String :=
  let p := sha1Pad msg
  let h := sha1Blocks p.length p (1732584193, 4023233417, 2562383102, 271733878, 3285377520)
  match h with
  | (h0, h1, h2, h3, h4) =>
      String.mk
        (((bytesBE 4 h0 ++ bytesBE 4 h1 ++ bytesBE 4 h2 ++ bytesBE 4 h3 ++ bytesBE 4 h4).map
          hexByte).flatten)

/-! ## JavaScript string primitives.

The source manipulates JavaScript strings (`String.prototype.trim`, the
WHATWG URL component splits, ASCII case folding for the `/i` regular
expression flag).  They are implemented here by structural recursion over
the character list, so that every definition evaluates inside the kernel. -/

/-- JavaScript `String.prototype.trim`: strip leading and trailing
whitespace. -/
def jsTrim (s : String) : String :=
  String.mk (((s.data.dropWhile Char.isWhitespace).reverse.dropWhile Char.isWhitespace).reverse)

/-- Does the first list begin the second one? -/
def charsBegin : List Char → List Char → Bool
  | [], _ => true
  | _ :: _, [] => false
  | a :: as, b :: bs => a = b && charsBegin as bs

/-- Split a character list at the first occurrence of `sep`: the part
before it and the part after it, or `none` when `sep` does not occur. -/
def splitFirstList (sep : List Char) : List Char → Option (List Char × List Char)
  | [] => none
  | c :: rest =>
      if charsBegin sep (c :: rest) then some ([], (c :: rest).drop sep.length)
      else
        match splitFirstList sep rest with
        | none => none
        | some pq => some (c :: pq.1, pq.2)

/-- Split a string at the first occurrence of `sep` (kept whole when
`sep` does not occur). -/
def splitFirstStr (s sep : String) : String × Option String :=
  match splitFirstList sep.data s.data with
  | none => (s, none)
  | some pq => (String.mk pq.1, some (String.mk pq.2))

/-- Split a character list on every occurrence of the character `c`. -/
def splitChar (c : Char) : List Char → List (List Char)
  | [] => [[]]
  | a :: rest =>
      let r := splitChar c rest
      if a = c then [] :: r
      else
        match r with
        | [] => [[a]]
        | h :: t => (a :: h) :: t

/-- Join character lists with a separator character. -/
def joinChar (c : Char) : List (List Char) → List Char
  | [] => []
  | [x] => x
  | x :: xs => x ++ c :: joinChar c xs

/-- Join strings with a separator string. -/
def joinStr (sep : String) : List String → String
  | [] => ""
  | [x] => x
  | x :: xs => x ++ sep ++ joinStr sep xs

/-- Does `l` end with `suffix`? -/
def charsEnd (suffix l : List Char) : Bool :=
  charsBegin suffix.reverse l.reverse

/-! ## URL model for `_cacheBustedUrl` (src/lib/renderer.js lines 24-38).

The WHATWG `URL` object is modelled for the subset of behaviour the
function uses: parsing an absolute `scheme://host/path?query#fragment`
URL, the `pathname` suffix test, `searchParams.set`, and `toString`.
Percent-encoding and host normalization are outside the subset. -/

/-- Parsed URL components. -/
structure UrlParts where
  scheme : String
  host : String
  pathname : String
  params : List (String × String)
  fragment : Option String
  deriving Repr, DecidableEq

/-- Parse an HTML-form query string into key/value pairs. -/
def parseQueryStr (q : String) : List (String × String) :=
  if q = "" then []
  else
    (splitChar '&' q.data).map fun kv =>
      match splitFirstList ['='] kv with
      | none => (String.mk kv, "")
      | some pv => (String.mk pv.1, String.mk pv.2)

/-- Parse an absolute URL; `none` models the `new URL(...)` constructor
throwing (caught by `_cacheBustedUrl`, which then returns its input). -/
def parseUrl (s : String) : Option UrlParts :=
  match splitFirstStr s "://" with
  | (_, none) => none
  | (sch, some rest) =>
      if sch = "" ∨ rest = "" then none
      else
        let pf := splitFirstStr rest "#"
        let pq := splitFirstStr pf.1 "?"
        match splitChar '/' pq.1.data with
        | [] => none
        | host :: pathSegs =>
            if host = [] then none
            else
              some { scheme := sch, host := String.mk host,
                     pathname := String.mk ('/' :: joinChar '/' pathSegs),
                     params := match pq.2 with | none => [] | some qs => parseQueryStr qs,
                     fragment := pf.2 }

/-- Serialize a query-parameter list (empty list serializes to nothing). -/
def queryToString (ps : List (String × String)) : String :=
  if ps = [] then ""
  else "?" ++ joinStr "&" (ps.map fun kv => kv.1 ++ "=" ++ kv.2)

/-- Serialize a parsed URL back to a string. -/
def urlToString (u : UrlParts) : String :=
  u.scheme ++ "://" ++ u.host ++ u.pathname ++ queryToString u.params ++
    (match u.fragment with | none => "" | some f => "#" ++ f)

/-- Remove every binding of key `k` (helper of `setParam`). -/
def removeParam : List (String × String) → String → List (String × String)
  | [], _ => []
  | (k0, v0) :: rest, k =>
      if k0 = k then removeParam rest k else (k0, v0) :: removeParam rest k

/-- `URLSearchParams.set`: replace the first binding of `k` in place and
drop later duplicates, or append when absent. -/
def setParam : List (String × String) → String → String → List (String × String)
  | [], k, v => [(k, v)]
  | (k0, v0) :: rest, k, v =>
      if k0 = k then (k0, v) :: removeParam rest k
      else (k0, v0) :: setParam rest k v

/-- First binding of key `k`. -/
def lookupParam : List (String × String) → String → Option String
  | [], _ => none
  | (k0, v0) :: rest, k => if k0 = k then some v0 else lookupParam rest k

/-- The case-insensitive test of the regular expression
`/\/vis\/index\.html$/i` applied to a pathname. -/
def isVisIndexPath (p : String) : Bool :=
  charsEnd "/vis/index.html".data (p.data.map Char.toLower)

/-- Embedding of `_cacheBustedUrl(raw, cacheBustOnReload)`
(src/lib/renderer.js lines 24-38); `now` is the `Date.now()` value used
for the `hb_ts` parameter. -/
def cacheBustedUrl (raw : String) (cacheBustOnReload : Bool) (now : ℕ) : String :=
  let u0 := (jsTrim raw)
  if u0 = "" then u0
  else if cacheBustOnReload = false then u0
  else
    match parseUrl u0 with
    | none => u0
    | some u =>
        if isVisIndexPath u.pathname then u0
        else urlToString { u with params := setParam u.params "hb_ts" (toString now) }

/-! ## Frames and view sessions (`_ViewSession`, src/lib/renderer.js). -/

/-- A published frame: PNG bytes, ETag, capture timestamp. -/
structure Frame where
  png : List ℕ
  etag : String
  ts : ℕ
  deriving Repr, DecidableEq

/-- The mutable state of one `_ViewSession`.  `ctxPresent` models a
non-null `this.ctx` browser context, `pageOpen`/`pageUrl` model the
Playwright page handle and its current URL. -/
structure SessionState where
  captureMinIntervalMs : ℕ
  captureMaxIntervalMs : ℕ
  autoReloadMs : ℕ
  cacheBustOnReload : Bool
  view : Option (String × String)
  ctxPresent : Bool
  pageOpen : Bool
  pageUrl : String
  running : Bool
  wantCaptureNow : Bool
  wantReloadNow : Bool
  probeMs : ℕ
  lastReloadTs : ℕ
  lastCaptureTs : ℕ
  lastError : String
  lastFrame : Option Frame
  subscribers : ℕ
  lastHttpSeenTs : ℕ
  lastInactiveTs : ℕ
  enabled : Bool
  deriving Repr, DecidableEq

/-- `_ViewSession` constructor (src/lib/renderer.js lines 41-69); the
`x || d` defaulting of falsy arguments becomes `if x = 0 then d else x`. -/
def mkSession (cmin cmax ar : ℕ) (cb : Bool) : SessionState :=
  let m := max 50 (if cmin = 0 then 200 else cmin)
  { captureMinIntervalMs := m,
    captureMaxIntervalMs := max m (if cmax = 0 then 2000 else cmax),
    autoReloadMs := ar,
    cacheBustOnReload := cb,
    view := none, ctxPresent := true, pageOpen := false, pageUrl := "",
    running := false, wantCaptureNow := false, wantReloadNow := false,
    probeMs := m, lastReloadTs := 0, lastCaptureTs := 0, lastError := "",
    lastFrame := none, subscribers := 0, lastHttpSeenTs := 0,
    lastInactiveTs := 0, enabled := false }

/-- `setView(view, captureMinIntervalMs)` (lines 71-79). -/
def sessSetView (s : SessionState) (id url : String) (minMs : ℕ) : SessionState :=
  let s1 :=
    if minMs ≠ 0 then
      let m := max 50 minMs
      { s with captureMinIntervalMs := m,
               captureMaxIntervalMs := max m s.captureMaxIntervalMs }
    else s
  { s1 with view := some (id, url), wantCaptureNow := true,
            probeMs := s1.captureMinIntervalMs }

/-- `subscribe()` (lines 81-86). -/
def sessSubscribe (s : SessionState) : SessionState :=
  { s with subscribers := s.subscribers + 1, lastInactiveTs := 0,
           wantCaptureNow := true, enabled := true }

/-- `unsubscribe()` (lines 88-94); `Math.max(0, n - 1)` is truncated `Nat`
subtraction, and the `≤ 0` branch fires exactly when the new count is 0 —
including when it already was 0, which refreshes `lastInactiveTs`. -/
def sessUnsubscribe (s : SessionState) (now : ℕ) : SessionState :=
  let n := s.subscribers - 1
  if n = 0 then { s with subscribers := 0, lastInactiveTs := now }
  else { s with subscribers := n }

/-- `touchHttp()` (lines 96-101). -/
def sessTouchHttp (s : SessionState) (now : ℕ) : SessionState :=
  { s with lastHttpSeenTs := now, lastInactiveTs := 0,
           wantCaptureNow := true, enabled := true }

/-- `wanted(nowMs, inactiveGraceMs)` (lines 103-108). -/
def wanted (s : SessionState) (nowMs graceMs : ℕ) : Bool :=
  if 0 < s.subscribers then true
  else
    let last := max s.lastHttpSeenTs s.lastInactiveTs
    if last = 0 then false else decide (nowMs - last ≤ graceMs)

/-- `closePage()` (lines 309-316). -/
def sessClosePage (s : SessionState) : SessionState :=
  if s.pageOpen then { s with pageOpen := false, pageUrl := "", enabled := false }
  else s

/-- `stop()` (lines 300-307): clear the running flag, then close the page. -/
def sessStop (s : SessionState) : SessionState :=
  sessClosePage { s with running := false }

/-- `_goto(url)` on navigation success (lines 215-231). -/
def sessGotoOk (s : SessionState) (url : String) (now : ℕ) : SessionState :=
  if s.pageOpen then
    { s with lastError := "", pageUrl := url, lastReloadTs := now,
             wantCaptureNow := true, probeMs := s.captureMinIntervalMs }
  else s

/-- `_goto(url)` when the driver navigation throws: `lastError := ""` is
overwritten by the caught message, nothing else of the success path runs. -/
def sessGotoFail (s : SessionState) (msg : String) : SessionState :=
  if s.pageOpen then { s with lastError := msg } else s

/-- `_reload()` on success (lines 233-257): navigate to the cache-busted
URL when it differs from the page URL (else an in-place reload), then mark
state. -/
def sessReloadOk (s : SessionState) (now : ℕ) : SessionState :=
  match s.view with
  | none => s
  | some v =>
      if s.pageOpen then
        let u0 := cacheBustedUrl v.2 s.cacheBustOnReload now
        { s with pageUrl := if u0 ≠ "" ∧ s.pageUrl ≠ "" ∧ u0 ≠ s.pageUrl then u0 else s.pageUrl,
                 lastError := "", lastReloadTs := now, wantCaptureNow := true,
                 probeMs := s.captureMinIntervalMs }
      else s

/-- `_reload()` when the driver throws. -/
def sessReloadFail (s : SessionState) (msg : String) : SessionState :=
  match s.view with
  | none => s
  | some _ => if s.pageOpen then { s with lastError := msg } else s

/-- `tick({inactiveGraceMs, closePageAfterInactiveMs})` (lines 318-339);
the `_ensurePage`/`_goto` driver calls are taken to succeed (they only
write `lastError` and skip the page bookkeeping otherwise). -/
def sessTick (s : SessionState) (now graceMs cpaiMs : ℕ) : SessionState :=
  let want := wanted s now graceMs
  let s1 := { s with enabled := want }
  if want = false then
    let lastAct := max s1.lastHttpSeenTs s1.lastInactiveTs
    if s1.pageOpen = true ∧ 0 < cpaiMs ∧ lastAct ≠ 0 ∧ cpaiMs ≤ now - lastAct then
      sessClosePage s1
    else s1
  else
    let s2 :=
      if s1.pageOpen = false ∧ s1.ctxPresent = true then
        { s1 with pageOpen := true, pageUrl := "" }
      else s1
    match s2.view with
    | none => s2
    | some v =>
        if s2.pageOpen = true ∧ v.2 ≠ "" ∧ (s2.pageUrl = "" ∨ s2.pageUrl ≠ v.2) then
          sessGotoOk s2 v.2 now
        else s2

/-- `_capturePng()` (lines 276-292): screenshot bytes are external input;
the ETag is the double-quoted lowercase SHA-1 hex of the bytes. -/
def capturePng (png : List ℕ) (now : ℕ) : Frame :=
  { png := png, etag := "\"" ++ sha1Hex png ++ "\"", ts := now }

/-- The publish/backoff tail of one `_loop` iteration after a successful
capture (lines 399-413).  Input: session, the loop-local `lastChangeTs`,
and the captured frame.  Output: updated session, updated `lastChangeTs`,
and whether `onFrame` was invoked. -/
def processCapture (s : SessionState) (lastChangeTs : ℕ) (fr : Frame) :
    SessionState × ℕ × Bool :=
  let s1 := { s with lastError := "", lastCaptureTs := fr.ts }
  let changed :=
    match s1.lastFrame with
    | none => true
    | some f0 => decide (f0.etag ≠ fr.etag)
  if changed then
    ({ s1 with lastFrame := some fr, probeMs := s1.captureMinIntervalMs }, fr.ts, true)
  else
    ({ s1 with probeMs := min s1.captureMaxIntervalMs (s1.probeMs * 3 / 2) }, lastChangeTs, false)

/-! ## Renderer pool (`RendererPool`, src/lib/renderer.js lines 423-677).

Sessions live in an association list mirroring the insertion-ordered
JavaScript `Map`; `lookupStr` is `Map.get`, `updateSession` is an
in-place update of the existing entry, and appending models `Map.set` of
a fresh key. -/

/-- `Map.get` on a string-keyed association list. -/
def lookupStr {α : Type} : List (String × α) → String → Option α
  | [], _ => none
  | (k, v) :: rest, id => if k = id then some v else lookupStr rest id

/-- `Map.set` on a string-keyed association list: update the first
binding in place, else append. -/
def setAssoc {α : Type} : List (String × α) → String → α → List (String × α)
  | [], k, v => [(k, v)]
  | (k0, v0) :: rest, k, v =>
      if k0 = k then (k0, v) :: rest else (k0, v0) :: setAssoc rest k v

/-- Update the value stored under key `id` (no effect on other keys). -/
def updateSession (l : List (String × SessionState)) (id : String)
    (f : SessionState → SessionState) : List (String × SessionState) :=
  l.map fun p => if p.1 = id then (p.1, f p.2) else p

/-- A configured view as handed to the pool (`{id, url, busyFps}`
projection of a config views entry). -/
structure ViewCfg where
  id : String
  url : String
  busyFps : ℕ
  deriving Repr, DecidableEq

/-- Result of the private admission gate `_canActivate`. -/
structure Gate where
  ok : Bool
  active : List String
  deriving Repr, DecidableEq

/-- Structured error thrown by `subscribe`/`touchHttp` on rejection. -/
structure PoolErr where
  code : String
  limit : ℕ
  activeViews : List String
  deriving Repr, DecidableEq

/-- The mutable state of one `RendererPool`. -/
structure PoolState where
  captureMinIntervalMs : ℕ
  captureMaxIntervalMs : ℕ
  autoReloadMs : ℕ
  cacheBustOnReload : Bool
  maxActiveViews : ℕ
  inactiveGraceMs : ℕ
  closePageAfterInactiveMs : ℕ
  closeBrowserAfterInactiveMs : ℕ
  browserOpen : Bool
  sessions : List (String × SessionState)
  lastAnyActiveTs : ℕ
  deriving Repr, DecidableEq

/-- `RendererPool` constructor (lines 424-456), with the source's
`Math.min/Math.max` clamps and `x || d` falsy defaulting. -/
def mkPool (cmin cmax ar : ℕ) (cb : Bool) (m grace cpai cbai : ℕ) : PoolState :=
  let mn := max 50 (if cmin = 0 then 200 else cmin)
  { captureMinIntervalMs := mn,
    captureMaxIntervalMs := max mn (if cmax = 0 then 2000 else cmax),
    autoReloadMs := ar,
    cacheBustOnReload := cb,
    maxActiveViews := min 10 (max 1 (if m = 0 then 2 else m)),
    inactiveGraceMs := if grace = 0 then 5000 else grace,
    closePageAfterInactiveMs := if cpai = 0 then 15000 else cpai,
    closeBrowserAfterInactiveMs := if cbai = 0 then 30000 else cbai,
    browserOpen := false, sessions := [], lastAnyActiveTs := 0 }

/-- `_activeViewIds(nowMs)` (lines 530-536): the view-ids whose session is
wanted. -/
def activeList (st : PoolState) (now : ℕ) : List String :=
  (st.sessions.filter fun p => wanted p.2 now st.inactiveGraceMs).map Prod.fst

/-- `_canActivate(viewId)` (lines 538-544). -/
def canActivatePriv (st : PoolState) (viewId : String) (now : ℕ) : Gate :=
  let act := activeList st now
  if viewId ∈ act then { ok := true, active := act }
  else if st.maxActiveViews ≤ act.length then { ok := false, active := act }
  else { ok := true, active := act }

/-- `_busyFpsToMinIntervalMs(busyFps)` (lines 524-528). -/
def busyFpsToMinIntervalMs (poolMin busyFps : ℕ) : ℕ :=
  let fps := min 20 (max 1 busyFps)
  if fps = 0 then poolMin else max 50 (1000 / fps)

/-- The per-session part of `_ensureSession` (lines 552-584): re-attach
the context, ensure the loop runs, then `setView` with the busyFps-derived
minimum interval. -/
def bindSession (st : PoolState) (cfg : ViewCfg) (id url : String)
    (s : SessionState) : SessionState :=
  sessSetView { s with ctxPresent := true, running := true } id url
    (busyFpsToMinIntervalMs st.captureMinIntervalMs cfg.busyFps)

/-- `_ensureSession(viewCfg)` (lines 552-584): launch the browser, create
or rebind the session; returns the (trimmed) session key, or `none` when
the id or url is blank and no session is touched. -/
def ensureSessionSt (st : PoolState) (cfg : ViewCfg) : PoolState × Option String :=
  let st1 := { st with browserOpen := true }
  let id := (jsTrim cfg.id)
  let url := (jsTrim cfg.url)
  if id = "" ∨ url = "" then (st1, none)
  else
    match lookupStr st1.sessions id with
    | some _ =>
        ({ st1 with sessions := updateSession st1.sessions id (bindSession st1 cfg id url) },
         some id)
    | none =>
        ({ st1 with sessions := st1.sessions ++
            [(id, bindSession st1 cfg id url
                (mkSession st1.captureMinIntervalMs st1.captureMaxIntervalMs
                  st1.autoReloadMs st1.cacheBustOnReload))] },
         some id)

/-- `subscribe(viewCfg)` (lines 586-601).  The thrown rejection becomes a
`some PoolErr` alongside the state as mutated so far (nothing precedes the
gate, so a rejection leaves the state untouched). -/
def subscribePool (st : PoolState) (cfg : ViewCfg) (now : ℕ) :
    PoolState × Option PoolErr :=
  let id := (jsTrim cfg.id)
  let gate := canActivatePriv st id now
  if gate.ok = false then
    (st, some { code := "too_many_active_views", limit := st.maxActiveViews,
                activeViews := gate.active })
  else
    match ensureSessionSt st cfg with
    | (st1, none) => (st1, none)
    | (st1, some sid) =>
        ({ st1 with sessions := updateSession st1.sessions sid fun s =>
            sessTick (sessSubscribe s) now st1.inactiveGraceMs st1.closePageAfterInactiveMs },
         none)

/-- `unsubscribe(viewId)` (lines 603-608). -/
def unsubscribePool (st : PoolState) (viewId : String) (now : ℕ) : PoolState :=
  let id := (jsTrim viewId)
  match lookupStr st.sessions id with
  | none => st
  | some _ => { st with sessions := updateSession st.sessions id (sessUnsubscribe · now) }

/-- `touchHttp(viewCfg)` (lines 610-625). -/
def touchHttpPool (st : PoolState) (cfg : ViewCfg) (now : ℕ) :
    PoolState × Option PoolErr :=
  let id := (jsTrim cfg.id)
  let gate := canActivatePriv st id now
  if gate.ok = false then
    (st, some { code := "too_many_active_views", limit := st.maxActiveViews,
                activeViews := gate.active })
  else
    match ensureSessionSt st cfg with
    | (st1, none) => (st1, none)
    | (st1, some sid) =>
        ({ st1 with sessions := updateSession st1.sessions sid fun s =>
            sessTick (sessTouchHttp s now) now st1.inactiveGraceMs st1.closePageAfterInactiveMs },
         none)

/-- `getFrame(viewId)` (lines 627-630). -/
def poolGetFrame (st : PoolState) (viewId : String) : Option Frame :=
  match lookupStr st.sessions (jsTrim viewId) with
  | none => none
  | some s => s.lastFrame

/-- `_closeBrowser()` (lines 486-501): stop every session and null its
context, then drop the browser. -/
def closeBrowserPool (st : PoolState) : PoolState :=
  { st with browserOpen := false,
            sessions := st.sessions.map fun p => (p.1, { sessStop p.2 with ctxPresent := false }) }

/-- The pool maintenance `tick()` (lines 657-676). -/
def tickPool (st : PoolState) (now : ℕ) : PoolState :=
  let act := activeList st now
  let st1 :=
    if act.length ≠ 0 then { st with lastAnyActiveTs := now }
    else if st.lastAnyActiveTs = 0 then { st with lastAnyActiveTs := now }
    else st
  let st2 :=
    if st1.browserOpen = true ∧ 0 < st1.closeBrowserAfterInactiveMs ∧
        st1.closeBrowserAfterInactiveMs ≤ now - st1.lastAnyActiveTs then
      closeBrowserPool st1
    else st1
  if st2.browserOpen = false ∧ act.length = 0 then st2
  else
    { st2 with sessions := st2.sessions.map fun p =>
        (p.1, sessTick p.2 now st2.inactiveGraceMs st2.closePageAfterInactiveMs) }

/-! ## Operation traces over the pool (for the active-view cap claim). -/

/-- One externally triggered pool operation, timestamped with the
`Date.now()` at which it runs. -/
inductive PoolOp where
  | sub (cfg : ViewCfg) (now : ℕ)
  | unsub (viewId : String) (now : ℕ)
  | touch (cfg : ViewCfg) (now : ℕ)
  | tick (now : ℕ)
  deriving Repr, DecidableEq

/-- The timestamp of an operation. -/
def PoolOp.time : PoolOp → ℕ
  | .sub _ n => n
  | .unsub _ n => n
  | .touch _ n => n
  | .tick n => n

/-- Apply one operation (rejections leave the returned state). -/
def applyOp (st : PoolState) : PoolOp → PoolState
  | .sub cfg n => (subscribePool st cfg n).1
  | .unsub v n => unsubscribePool st v n
  | .touch cfg n => (touchHttpPool st cfg n).1
  | .tick n => tickPool st n

/-- Run a trace of operations. -/
def runOps (st : PoolState) : List PoolOp → PoolState
  | [] => st
  | op :: rest => runOps (applyOp st op) rest

/-- Timestamps along a trace never decrease (the clock is monotone). -/
def timesMonoB : ℕ → List PoolOp → Bool
  | _, [] => true
  | t0, op :: rest => decide (t0 ≤ op.time) && timesMonoB op.time rest

/-- An unsubscribe is matched when the targeted session (if any) still has
a subscriber. -/
def matchedUnsub (st : PoolState) : PoolOp → Bool
  | .unsub v _ =>
      match lookupStr st.sessions (jsTrim v) with
      | none => true
      | some s => decide (1 ≤ s.subscribers)
  | _ => true

/-- Trace validity: monotone timestamps and matched unsubscribes. -/
def validOpsB : ℕ → PoolState → List PoolOp → Bool
  | _, _, [] => true
  | t0, st, op :: rest =>
      decide (t0 ≤ op.time) && matchedUnsub st op && validOpsB op.time (applyOp st op) rest

/-- The time of the last operation of a trace (its start time if empty). -/
def endTime : ℕ → List PoolOp → ℕ
  | t0, [] => t0
  | _, op :: rest => endTime op.time rest

/-- Session keys are pairwise distinct (an invariant of the JavaScript
`Map`). -/
def poolKeysNodup (st : PoolState) : Prop := (st.sessions.map Prod.fst).Nodup

/-- Number of wanted sessions at time `t`. -/
def activeCount (st : PoolState) (t : ℕ) : ℕ :=
  st.sessions.countP fun p => wanted p.2 t st.inactiveGraceMs

/-- The cap invariant, stated for every present-or-future query time. -/
def InvUpto (st : PoolState) (t0 : ℕ) : Prop :=
  ∀ t, t0 ≤ t → activeCount st t ≤ st.maxActiveViews

/-! ## Adapter layer (src/main.js): views table, reservations, HTTP frame
request path, cold-start waiters. -/

/-- One entry of the validated `views` config (src/lib/config.js). -/
structure ViewEntry where
  id : String
  url : String
  enabled : Bool
  busyFps : ℕ
  deriving Repr, DecidableEq

/-- The adapter state relevant to admission and cold-start waiting.
`pendingActive` maps view-id to reservation expiry; `frameWaiters` maps
view-id to the registered cold-start resolvers, named here by the numeric
tokens `nextRid` hands out (the source uses the resolver closures
themselves as set elements). -/
structure AdapterState where
  cfgMaxActiveViews : ℕ
  viewsById : List (String × ViewEntry)
  pool : Option PoolState
  poolStarted : Bool
  pendingActive : List (String × ℕ)
  frameWaiters : List (String × List ℕ)
  nextRid : ℕ
  deriving Repr, DecidableEq

/-- `_viewCfg(viewId)` (src/main.js lines 162-167). -/
def viewCfgA (st : AdapterState) (viewId : String) : Option ViewEntry :=
  match lookupStr st.viewsById (jsTrim viewId) with
  | none => none
  | some v => if v.enabled = false then none else some v

/-- `_pendingMark(viewId)` (lines 398-403): place a 5-second reservation. -/
def pendingMark (st : AdapterState) (viewId : String) (now : ℕ) : AdapterState :=
  let id := (jsTrim viewId)
  if id = "" then st
  else { st with pendingActive := setAssoc st.pendingActive id (now + 5000) }

/-- JavaScript `Set.add` on an insertion-ordered list. -/
def insertIfAbsent (l : List String) (v : String) : List String :=
  if v ∈ l then l else l ++ [v]

/-- The set built by `_activeViewsNow()` (lines 405-419): pool-active
view-ids together with unexpired reservations. -/
def activeViewsNowList (st : AdapterState) (now : ℕ) : List String :=
  let base := match st.pool with | none => [] | some p => activeList p now
  let out := base.foldl insertIfAbsent []
  st.pendingActive.foldl
    (fun acc kv => if now < kv.2 then insertIfAbsent acc kv.1 else acc) out

/-- The side effect of `_activeViewsNow()`: expired reservations are
deleted while iterating. -/
def pruneExpired (st : AdapterState) (now : ℕ) : AdapterState :=
  { st with pendingActive := st.pendingActive.filter fun kv => decide (now < kv.2) }

/-- Result shape of `_canActivateNow`. -/
structure GateA where
  ok : Bool
  limit : ℕ
  activeViews : List String
  deriving Repr, DecidableEq

/-- `_canActivateNow(viewId)` (lines 421-428), returning the decision and
the state after the opportunistic pruning done by `_activeViewsNow`. -/
def canActivateNow (st : AdapterState) (viewId : String) (now : ℕ) :
    GateA × AdapterState :=
  let id := (jsTrim viewId)
  let act := activeViewsNowList st now
  let st1 := pruneExpired st now
  if id ∈ act then
    ({ ok := true, limit := st.cfgMaxActiveViews, activeViews := act }, st1)
  else
    let limit := min 10 (max 1 (if st.cfgMaxActiveViews = 0 then 2 else st.cfgMaxActiveViews))
    if limit ≤ act.length then ({ ok := false, limit := limit, activeViews := act }, st1)
    else ({ ok := true, limit := limit, activeViews := act }, st1)

/-- The error objects `_onHttpFrameRequest` returns (lines 198-226). -/
structure ErrResp where
  statusCode : ℕ
  error : String
  limit : ℕ
  activeViews : List String
  requested : String
  viewId : String
  deriving Repr, DecidableEq

/-- `_onHttpFrameRequest(viewId)` (lines 198-226): view lookup, pool
presence, admission gate, reservation, pool start and `touchHttp` (whose
own rejection is swallowed, keeping any state mutated before the throw). -/
def onHttpFrameRequest (st : AdapterState) (viewId : String) (now : ℕ) :
    Option ErrResp × AdapterState :=
  match viewCfgA st viewId with
  | none =>
      (some { statusCode := 404, error := "unknown_view", limit := 0, activeViews := [],
              requested := "", viewId := viewId }, st)
  | some v =>
      match st.pool with
      | none =>
          (some { statusCode := 503, error := "renderer_not_ready", limit := 0,
                  activeViews := [], requested := "", viewId := "" }, st)
      | some p =>
          let g := canActivateNow st viewId now
          if g.1.ok = false then
            (some { statusCode := 429, error := "too_many_active_views", limit := g.1.limit,
                    activeViews := g.1.activeViews, requested := viewId, viewId := "" },
             g.2)
          else
            let st2 := pendingMark g.2 viewId now
            let p2 := match st2.pool with | none => p | some q => q
            let p3 := (touchHttpPool p2 { id := v.id, url := v.url, busyFps := v.busyFps } now).1
            (none, { st2 with pool := some p3, poolStarted := true })

/-- `getFrame` as wired into the HTTP server (src/main.js line 135). -/
def adapterGetFrame (st : AdapterState) (viewId : String) : Option Frame :=
  match st.pool with
  | none => none
  | some p => poolGetFrame p viewId

/-- The truthiness test `fr && fr.png && fr.etag` of `_waitForFrame`
(line 234): a Node `Buffer` is always truthy, so only the ETag matters. -/
def frameTruthy : Option Frame → Bool
  | none => false
  | some fr => decide (fr.etag ≠ "")

/-- Outcome of a `_waitForFrame` call: resolved synchronously, or left
pending under a resolver token. -/
inductive WaitOutcome where
  | sync (b : Bool)
  | pending (rid : ℕ)
  deriving Repr, DecidableEq

/-- Add a resolver token to a view's waiter set (creating the set as
`_waitForFrame` does). -/
def addWaiter : List (String × List ℕ) → String → ℕ → List (String × List ℕ)
  | [], id, rid => [(id, [rid])]
  | (k, rs) :: rest, id, rid =>
      if k = id then (k, rs ++ [rid]) :: rest else (k, rs) :: addWaiter rest id rid

/-- `_waitForFrame(viewId, waitMs)` (lines 228-255).  `waitMs` is an
integer; `Math.max(0, Math.floor(waitMs))` is `Int.toNat`. -/
def waitForFrameA (st : AdapterState) (viewId : String) (waitMs : Int) :
    WaitOutcome × AdapterState :=
  let id := (jsTrim viewId)
  let ms := waitMs.toNat
  if id = "" ∨ st.pool.isNone then (.sync false, st)
  else if frameTruthy (adapterGetFrame st viewId) then (.sync true, st)
  else if ms = 0 then (.sync false, st)
  else
    (.pending st.nextRid,
     { st with frameWaiters := addWaiter st.frameWaiters id st.nextRid,
               nextRid := st.nextRid + 1 })

/-- The waiter set of a view (empty when the key is absent). -/
def lookupWaiters : List (String × List ℕ) → String → List ℕ
  | [], _ => []
  | (k, rs) :: rest, id => if k = id then rs else lookupWaiters rest id

/-- The timeout callback of `_waitForFrame` (lines 244-253): delete the
resolver from the set, dropping the set when it empties. -/
def removeWaiter : List (String × List ℕ) → String → ℕ → List (String × List ℕ)
  | [], _, _ => []
  | (k, rs) :: rest, id, rid =>
      if k = id then
        let rs2 := rs.filter fun r => decide (r ≠ rid)
        if rs2 = [] then rest else (k, rs2) :: rest
      else (k, rs) :: removeWaiter rest id rid

/-- Firing the timer of resolver `rid`: prune it and resolve `false`. -/
def timerFireA (st : AdapterState) (viewId : String) (rid : ℕ) : AdapterState × Bool :=
  ({ st with frameWaiters := removeWaiter st.frameWaiters (jsTrim viewId) rid }, false)

/-- Drop a whole waiter key (helper of `_onFrame`). -/
def removeWaiterKey : List (String × List ℕ) → String → List (String × List ℕ)
  | [], _ => []
  | (k, rs) :: rest, id => if k = id then rest else (k, rs) :: removeWaiterKey rest id

/-- The cold-start resolution step of `_onFrame(viewId, frame)` (lines
264-277): take the view's waiters, delete the set, resolve each `true`.
The returned list is the resolvers resolved with `true`. -/
def onFrameResolve (st : AdapterState) (viewId : String) : AdapterState × List ℕ :=
  let id := (jsTrim viewId)
  let ws := lookupWaiters st.frameWaiters id
  if ws = [] then (st, [])
  else ({ st with frameWaiters := removeWaiterKey st.frameWaiters id }, ws)

/-! ## HTTP frame route.

The multi-view route for `GET /frame/<viewId>.png` is absent from this
snapshot's `src/lib/http_server.js` (the file holds the legacy single-view
server); only its caller in `src/main.js` and the callbacks it receives
are in the sources. -/

/-- A minimal JSON value for response bodies. -/
inductive JVal where
  | jstr (s : String)
  | jnum (n : ℕ)
  | jarr (l : List String)
  deriving Repr, DecidableEq

/-- A JSON object body: ordered field list. -/
abbrev JBody := List (String × JVal)

/-- Modelled from the spec: steps 4-5 of the `GET /frame/<viewId>.png`
handler (spec section 4.4), whose implementation is missing from
`src/lib/http_server.js` in this snapshot.  The handler calls
`onFrameRequest(viewId)` (embedded above from src/main.js); a returned
error becomes the response (a rejection maps to HTTP 429 with
`{error, limit, activeViews, requested}`); otherwise it tries `getFrame`;
when no frame exists it records the `waitForFrame(viewId, 900)` call it
performs.  Result: (immediate error response, performed wait call, state). -/
def frameRoute1 (st : AdapterState) (viewId : String) (now : ℕ) :
    Option (ℕ × JBody) × Option (String × ℕ) × AdapterState :=
  match onHttpFrameRequest st viewId now with
  | (some e, st1) =>
      (some (e.statusCode,
        if e.error = "too_many_active_views" then
          [("error", .jstr e.error), ("limit", .jnum e.limit),
           ("activeViews", .jarr e.activeViews), ("requested", .jstr e.requested)]
        else [("error", .jstr e.error)]),
       none, st1)
  | (none, st1) =>
      match adapterGetFrame st1 viewId with
      | some _ => (none, none, st1)
      | none => (none, some (viewId, 900), st1)

/-- Modelled from the spec: the continuation of the frame route after the
`waitForFrame` call — if the frame is still absent the response is
503 `{error:"no_frame", viewId}` (spec section 4.4, step 5). -/
def frameRoute2 (viewId : String) (frameAfterWait : Option Frame) : Option (ℕ × JBody) :=
  match frameAfterWait with
  | some _ => none
  | none => some (503, [("error", .jstr "no_frame"), ("viewId", .jstr viewId)])

/-! ## Session step relation (every mutation of a `_ViewSession` in
src/lib/renderer.js), used to state reachability invariants. -/

/-- One mutation of a view session: the pool-driven calls, the capture
loop's branches (including driver failures writing `lastError`), and the
publish/backoff tail. -/
inductive SessStep : SessionState → SessionState → Prop
  | setView (s : SessionState) (id url : String) (minMs : ℕ) :
      SessStep s (sessSetView s id url minMs)
  | subscribe (s : SessionState) : SessStep s (sessSubscribe s)
  | unsubscribe (s : SessionState) (now : ℕ) : SessStep s (sessUnsubscribe s now)
  | touchHttp (s : SessionState) (now : ℕ) : SessStep s (sessTouchHttp s now)
  | tick (s : SessionState) (now g c : ℕ) : SessStep s (sessTick s now g c)
  | stop (s : SessionState) : SessStep s (sessStop s)
  | closePage (s : SessionState) : SessStep s (sessClosePage s)
  | ensurePage (s : SessionState) :
      SessStep s (if s.pageOpen = false ∧ s.ctxPresent = true then
        { s with pageOpen := true, pageUrl := "" } else s)
  | rebindCtx (s : SessionState) (b : Bool) : SessStep s { s with ctxPresent := b }
  | startLoop (s : SessionState) : SessStep s { s with running := true }
  | gotoOk (s : SessionState) (url : String) (now : ℕ) : SessStep s (sessGotoOk s url now)
  | gotoFail (s : SessionState) (msg : String) : SessStep s (sessGotoFail s msg)
  | reloadOk (s : SessionState) (now : ℕ) : SessStep s (sessReloadOk s now)
  | reloadFail (s : SessionState) (msg : String) : SessStep s (sessReloadFail s msg)
  | reloadFlagClear (s : SessionState) : SessStep s { s with wantReloadNow := false }
  | reloadFlagRaise (s : SessionState) : SessStep s { s with wantReloadNow := true }
  | captureFlagClear (s : SessionState) : SessStep s { s with wantCaptureNow := false }
  | dirtyReset (s : SessionState) : SessStep s { s with probeMs := s.captureMinIntervalMs }
  | capture (s : SessionState) (lct : ℕ) (png : List ℕ) (ts : ℕ) :
      SessStep s (processCapture s lct (capturePng png ts)).1
  | loopError (s : SessionState) (msg : String) : SessStep s { s with lastError := msg }

/-- States reachable from an initial session by loop and pool activity. -/
def SessReachable (init s : SessionState) : Prop := Relation.ReflTransGen SessStep init s

/-! ## Predicates and concrete states used by the theorems below. -/

/-- Every stored frame's ETag is the double-quoted lowercase SHA-1 hex of
its PNG bytes. -/
def EtagWF (s : SessionState) : Prop :=
  ∀ f, s.lastFrame = some f → f.etag = "\"" ++ sha1Hex f.png ++ "\""

/-- The probe-interval invariant of a view session. -/
def ProbeInv (s : SessionState) : Prop :=
  s.captureMinIntervalMs ≤ s.probeMs ∧ s.probeMs ≤ s.captureMaxIntervalMs

/-- The admission set in the spec's words: "current active view-ids union
with unexpired reservations" (spec section 4.2), as a finite set.  Stated
from the spec, to be compared with the code's `_canActivateNow`. -/
def specActiveSet (st : AdapterState) (now : ℕ) : Finset String :=
  (match st.pool with | none => ([] : List String) | some p => activeList p now).toFinset ∪
    ((st.pendingActive.filter fun kv => decide (now < kv.2)).map Prod.fst).toFinset

/-- A pool with `maxActiveViews = 1` holding one subscribed session `A`
(and no frame yet): reached from a fresh pool by one admitted subscribe. -/
def onePool : PoolState :=
  (subscribePool (mkPool 200 2000 0 false 1 5000 15000 30000)
    { id := "A", url := "http://x/a", busyFps := 10 } 0).1

/-- A view config for a second view `B`. -/
def cfgB : ViewCfg := { id := "B", url := "http://x/b", busyFps := 10 }

/-- Adapter state around `onePool` with view `B` configured and a
single-view limit: the HTTP admission gate rejects `B`. -/
def adSt429 : AdapterState :=
  { cfgMaxActiveViews := 1,
    viewsById := [("B", { id := "B", url := "http://x/b", enabled := true, busyFps := 10 })],
    pool := some onePool, poolStarted := true, pendingActive := [],
    frameWaiters := [], nextRid := 0 }

/-- Adapter state around `onePool` with a wide limit: requests for `A`
are admitted but no frame exists yet. -/
def adStNoFrame : AdapterState :=
  { cfgMaxActiveViews := 5,
    viewsById := [("A", { id := "A", url := "http://x/a", enabled := true, busyFps := 10 })],
    pool := some onePool, poolStarted := true, pendingActive := [],
    frameWaiters := [], nextRid := 0 }

/-- Adapter state with no pool and one unexpired reservation for `A`. -/
def adStReserved : AdapterState :=
  { cfgMaxActiveViews := 1, viewsById := [], pool := none, poolStarted := false,
    pendingActive := [("A", 10)], frameWaiters := [], nextRid := 0 }

/-- A stored frame and a session holding it, plus a later capture with an
identical ETag (concrete inputs for the unchanged-capture claim). -/
def frOld : Frame := { png := [1], etag := "tag", ts := 3 }

/-- Session holding `frOld` as its latest frame. -/
def sessWithFrame : SessionState := { mkSession 200 2000 0 false with lastFrame := some frOld }

/-- A new capture whose ETag matches `frOld`. -/
def frNewSame : Frame := { png := [2], etag := "tag", ts := 9 }

/-- Fresh pool with `maxActiveViews = 1` and a 5-second grace, start state
of the cap counterexample trace. -/
def cexPool : PoolState := mkPool 200 2000 0 false 1 5000 15000 30000

/-- The trace violating the active-view cap: subscribe `A`, unsubscribe it,
let the grace expire, subscribe `B`, then unsubscribe `A` again — the
second (unmatched) unsubscribe refreshes `lastInactiveTs` of `A` and
revives it into the active set alongside `B`. -/
def cexOps : List PoolOp :=
  [ .sub { id := "A", url := "http://x/a", busyFps := 10 } 1000,
    .unsub "A" 1000,
    .sub { id := "B", url := "http://x/b", busyFps := 10 } 7000,
    .unsub "A" 7000 ]

/-! ## Theorems. -/

/-- The publish/backoff tail stores either the fresh frame or keeps the
old one. -/
lemma processCapture_lastFrame_cases (s : SessionState) (lct : ℕ) (fr : Frame) :
    (processCapture s lct fr).1.lastFrame = some fr ∨
      (processCapture s lct fr).1.lastFrame = s.lastFrame := by
  cases hl : s.lastFrame with
  | none => simp [processCapture, hl]
  | some f0 =>
      by_cases he : f0.etag = fr.etag
      · simp [processCapture, hl, he]
      · simp [processCapture, hl, he]

/-- `onFrame` is invoked only with the frame that was just stored. -/
lemma processCapture_emit (s : SessionState) (lct : ℕ) (fr : Frame)
    (h : (processCapture s lct fr).2.2 = true) :
    (processCapture s lct fr).1.lastFrame = some fr := by
  cases hl : s.lastFrame with
  | none => simp [processCapture, hl]
  | some f0 =>
      by_cases he : f0.etag = fr.etag
      · simp [processCapture, hl, he] at h
      · simp [processCapture, hl, he]

/-- C7: when a capture's ETag equals the current `lastFrame`'s ETag, the
loop iteration does not publish: `onFrame` is not invoked, `lastFrame` and
the loop-local `lastChangeTs` are unchanged, `probeMs` backs off to
`min(captureMaxIntervalMs, floor(probeMs * 1.5))`, and only `lastCaptureTs`
and `lastError` are otherwise updated (src/lib/renderer.js lines 399-413). -/
theorem C7_unchanged_capture_backoff (s : SessionState) (lct : ℕ) (fr f0 : Frame)
    (h0 : s.lastFrame = some f0) (he : f0.etag = fr.etag) :
    processCapture s lct fr =
      ({ s with lastError := "", lastCaptureTs := fr.ts,
                probeMs := min s.captureMaxIntervalMs (s.probeMs * 3 / 2) }, lct, false) := by
  unfold processCapture
  simp [h0, he]

/-- C7 witness: a concrete unchanged capture takes the backoff branch. -/
theorem C7_unchanged_capture_backoff_witness :
    sessWithFrame.lastFrame = some frOld ∧ frOld.etag = frNewSame.etag ∧
      processCapture sessWithFrame 4 frNewSame =
        ({ sessWithFrame with
            lastError := "", lastCaptureTs := frNewSame.ts,
            probeMs := min sessWithFrame.captureMaxIntervalMs (sessWithFrame.probeMs * 3 / 2) },
         4, false) :=
  ⟨rfl, rfl, C7_unchanged_capture_backoff sessWithFrame 4 frNewSame frOld rfl rfl⟩

/-- C9: the per-view effective minimum interval derived from `busyFps` is
`max 50 (floor (1000 / busyFps))` with `busyFps` clamped into `[1, 20]`,
and binding it through `setView` installs exactly that minimum while
clamping `captureMaxIntervalMs` up to at least the new minimum
(src/lib/renderer.js lines 524-528 and 71-79). -/
theorem C9_busy_fps_min_interval (poolMin b : ℕ) (s : SessionState) (id url : String) :
    busyFpsToMinIntervalMs poolMin b = max 50 (1000 / min 20 (max 1 b))
    ∧ (sessSetView s id url (busyFpsToMinIntervalMs poolMin b)).captureMinIntervalMs
        = max 50 (1000 / min 20 (max 1 b))
    ∧ (sessSetView s id url (busyFpsToMinIntervalMs poolMin b)).captureMaxIntervalMs
        = max (max 50 (1000 / min 20 (max 1 b))) s.captureMaxIntervalMs := by
  have hfps : min 20 (max 1 b) ≠ 0 := by
    have h1 : 1 ≤ max 1 b := Nat.le_max_left 1 b
    omega
  have h1 : busyFpsToMinIntervalMs poolMin b = max 50 (1000 / min 20 (max 1 b)) := by
    simp [busyFpsToMinIntervalMs, hfps]
  have hge : 50 ≤ busyFpsToMinIntervalMs poolMin b := by
    rw [h1]; exact Nat.le_max_left _ _
  have hne : busyFpsToMinIntervalMs poolMin b ≠ 0 := by omega
  have habs : max 50 (busyFpsToMinIntervalMs poolMin b) = busyFpsToMinIntervalMs poolMin b :=
    Nat.max_eq_right hge
  refine ⟨h1, ?_, ?_⟩ <;> simp [sessSetView, hne, habs, h1]

/-- C3: every frame built by `_capturePng` carries as its ETag the
double-quoted lowercase SHA-1 hex digest of its PNG bytes, the loop's
publish step preserves that property of `lastFrame`, and any frame passed
to `onFrame` is the stored one (src/lib/renderer.js lines 276-292 and
399-413). -/
theorem C3_etag_is_quoted_sha1 (s : SessionState) (lct : ℕ) (png : List ℕ) (ts : ℕ)
    (hwf : EtagWF s) :
    (capturePng png ts).etag = "\"" ++ sha1Hex png ++ "\""
    ∧ EtagWF (processCapture s lct (capturePng png ts)).1
    ∧ ((processCapture s lct (capturePng png ts)).2.2 = true →
        (processCapture s lct (capturePng png ts)).1.lastFrame = some (capturePng png ts)) := by
  refine ⟨rfl, ?_, processCapture_emit s lct (capturePng png ts)⟩
  intro f hf
  rcases processCapture_lastFrame_cases s lct (capturePng png ts) with hc | hc
  · rw [hc] at hf
    cases hf
    rfl
  · rw [hc] at hf
    exact hwf f hf

/-- C3 witness: a fresh session satisfies the ETag invariant, and a
concrete capture keeps it. -/
theorem C3_etag_is_quoted_sha1_witness :
    EtagWF (mkSession 200 2000 0 false)
    ∧ ((capturePng [7] 1).etag = "\"" ++ sha1Hex [7] ++ "\""
        ∧ EtagWF (processCapture (mkSession 200 2000 0 false) 0 (capturePng [7] 1)).1
        ∧ ((processCapture (mkSession 200 2000 0 false) 0 (capturePng [7] 1)).2.2 = true →
            (processCapture (mkSession 200 2000 0 false) 0 (capturePng [7] 1)).1.lastFrame
              = some (capturePng [7] 1))) :=
  ⟨fun f hf => by simp [mkSession] at hf,
   C3_etag_is_quoted_sha1 (mkSession 200 2000 0 false) 0 [7] 1
     (fun f hf => by simp [mkSession] at hf)⟩

/-- C10: a gate-rejected `subscribe` or `touchHttp` throws the structured
`too_many_active_views` error carrying the pool's (construction-clamped)
limit and the active-view list, and leaves the pool state — browser,
session map, counters, timestamps — exactly as before (src/lib/renderer.js
lines 586-601 and 610-625); the last conjunct records the constructor's
clamping of the limit. -/
theorem C10_rejection_atomic (st : PoolState) (cfg : ViewCfg) (now : ℕ)
    (hrej : (canActivatePriv st (jsTrim cfg.id) now).ok = false) :
    subscribePool st cfg now
      = (st, some { code := "too_many_active_views", limit := st.maxActiveViews,
                    activeViews := (canActivatePriv st (jsTrim cfg.id) now).active })
    ∧ touchHttpPool st cfg now
      = (st, some { code := "too_many_active_views", limit := st.maxActiveViews,
                    activeViews := (canActivatePriv st (jsTrim cfg.id) now).active })
    ∧ ∀ (cmin cmax ar : ℕ) (cb : Bool) (m grace cpai cbai : ℕ),
        (mkPool cmin cmax ar cb m grace cpai cbai).maxActiveViews
          = min 10 (max 1 (if m = 0 then 2 else m)) := by
  refine ⟨?_, ?_, fun _ _ _ _ _ _ _ _ => rfl⟩ <;>
    simp [subscribePool, touchHttpPool, hrej]

/-- C10 witness: with a one-view limit and `A` subscribed, subscribing `B`
is rejected atomically. -/
theorem C10_rejection_atomic_witness :
    (canActivatePriv onePool (jsTrim cfgB.id) 0).ok = false
    ∧ subscribePool onePool cfgB 0
        = (onePool, some { code := "too_many_active_views", limit := onePool.maxActiveViews,
                           activeViews := (canActivatePriv onePool (jsTrim cfgB.id) 0).active }) :=
  ⟨by decide, (C10_rejection_atomic onePool cfgB 0 (by decide)).1⟩

/-- Looking up a key other than the removed one is unaffected. -/
lemma lookupParam_removeParam (ps : List (String × String)) (k k2 : String) (h : k2 ≠ k) :
    lookupParam (removeParam ps k) k2 = lookupParam ps k2 := by
  induction ps with
  | nil => rfl
  | cons p rest ih =>
      obtain ⟨k0, v0⟩ := p
      by_cases hk : k0 = k
      · subst hk
        have : k0 ≠ k2 := fun he => h he.symm
        simp [removeParam, lookupParam, this, ih]
      · simp [removeParam, lookupParam, hk, ih]

/-- `searchParams.set` binds the key to the new value. -/
lemma lookupParam_setParam_self (ps : List (String × String)) (k v : String) :
    lookupParam (setParam ps k v) k = some v := by
  induction ps with
  | nil => simp [setParam, lookupParam]
  | cons p rest ih =>
      obtain ⟨k0, v0⟩ := p
      by_cases hk : k0 = k
      · simp [setParam, lookupParam, hk]
      · simp [setParam, lookupParam, hk, ih]

/-- `searchParams.set` leaves every other key's first binding unchanged. -/
lemma lookupParam_setParam_other (ps : List (String × String)) (k v k2 : String)
    (h : k2 ≠ k) :
    lookupParam (setParam ps k v) k2 = lookupParam ps k2 := by
  induction ps with
  | nil =>
      have : k ≠ k2 := fun he => h he.symm
      simp [setParam, lookupParam, this]
  | cons p rest ih =>
      obtain ⟨k0, v0⟩ := p
      by_cases hk : k0 = k
      · subst hk
        have : k0 ≠ k2 := fun he => h he.symm
        simp [setParam, lookupParam, this, lookupParam_removeParam rest k0 k2 h]
      · simp [setParam, lookupParam, hk, ih]

/-- C5 counterexample: with `cacheBustOnReload = false` the transform is
claimed to be a no-op, but `_cacheBustedUrl` trims its input
(src/lib/renderer.js line 25), so on `" x"` the output `"x"` differs from
the input. -/
theorem C5_cache_bust_counterexample : cacheBustedUrl " x" false 0 ≠ " x" := by decide

/-- C5 (amended): for already-trimmed input the transform is a no-op when
`cacheBustOnReload` is false, the input is empty, the input does not parse
as a URL, or the parsed path matches `/vis/index.html` case-insensitively;
otherwise the output is the parsed URL re-serialized with the `hb_ts`
query parameter added or replaced — scheme, host, path, fragment and all
other query parameters preserved (src/lib/renderer.js lines 24-38). -/
theorem C5_cache_bust_amended (raw : String) (cb : Bool) (now : ℕ)
    (htrim : jsTrim raw = raw) :
    (cb = false → cacheBustedUrl raw cb now = raw)
    ∧ (raw = "" → cacheBustedUrl raw cb now = raw)
    ∧ (parseUrl raw = none → cacheBustedUrl raw cb now = raw)
    ∧ (∀ u, parseUrl raw = some u → isVisIndexPath u.pathname = true →
        cacheBustedUrl raw cb now = raw)
    ∧ (∀ u, cb = true → parseUrl raw = some u → isVisIndexPath u.pathname = false →
        cacheBustedUrl raw cb now =
          urlToString { u with params := setParam u.params "hb_ts" (toString now) }
        ∧ lookupParam (setParam u.params "hb_ts" (toString now)) "hb_ts"
            = some (toString now)
        ∧ ∀ k, k ≠ "hb_ts" →
            lookupParam (setParam u.params "hb_ts" (toString now)) k
              = lookupParam u.params k) := by
  refine ⟨?_, ?_, ?_, ?_, ?_⟩
  · intro hcb
    subst hcb
    simp [cacheBustedUrl, htrim]
  · intro h0
    subst h0
    simp [cacheBustedUrl, htrim]
  · intro hparse
    simp [cacheBustedUrl, htrim, hparse]
  · intro u hparse hvis
    simp [cacheBustedUrl, htrim, hparse, hvis]
  · intro u hcb hparse hvis
    have hne : raw ≠ "" := by
      intro h0
      rw [h0] at hparse
      simp [parseUrl, splitFirstStr, splitFirstList] at hparse
    subst hcb
    refine ⟨?_, lookupParam_setParam_self u.params "hb_ts" (toString now),
      fun k hk => lookupParam_setParam_other u.params "hb_ts" (toString now) k hk⟩
    simp [cacheBustedUrl, htrim, hne, hparse, hvis]

/-- C5 witness: a concrete trimmed URL outside the excluded path gets its
`hb_ts` parameter set. -/
theorem C5_cache_bust_amended_witness :
    jsTrim "http://h/a?x=1" = "http://h/a?x=1"
    ∧ (∀ u, parseUrl "http://h/a?x=1" = some u → isVisIndexPath u.pathname = false →
        cacheBustedUrl "http://h/a?x=1" true 7 =
          urlToString { u with params := setParam u.params "hb_ts" (toString 7) }
        ∧ lookupParam (setParam u.params "hb_ts" (toString 7)) "hb_ts" = some (toString 7)
        ∧ ∀ k, k ≠ "hb_ts" →
            lookupParam (setParam u.params "hb_ts" (toString 7)) k = lookupParam u.params k) :=
  ⟨by decide,
   fun u hp hv =>
     (C5_cache_bust_amended "http://h/a?x=1" true 7 (by decide)).2.2.2.2 u rfl hp hv⟩

/-- C2: for `GET /frame/<viewId>.png` with a known enabled view and a
constructed pool, the route calls `onFrameRequest` (embedded from
`_onHttpFrameRequest`, src/main.js lines 198-226): on admission rejection
it answers 429 with `{error:"too_many_active_views", limit, activeViews,
requested}`; when the gate admits and no frame exists it performs
`waitForFrame(viewId, 900)`, and a still-absent frame yields
503 `{error:"no_frame", viewId}`. -/
theorem C2_frame_route (st : AdapterState) (viewId : String) (now : ℕ)
    (v : ViewEntry) (p : PoolState)
    (hv : viewCfgA st viewId = some v) (hp : st.pool = some p) :
    ((canActivateNow st viewId now).1.ok = false →
      frameRoute1 st viewId now =
        (some (429,
          [("error", JVal.jstr "too_many_active_views"),
           ("limit", JVal.jnum (canActivateNow st viewId now).1.limit),
           ("activeViews", JVal.jarr (canActivateNow st viewId now).1.activeViews),
           ("requested", JVal.jstr viewId)]),
         none, (canActivateNow st viewId now).2))
    ∧ (∀ st1, onHttpFrameRequest st viewId now = (none, st1) →
        adapterGetFrame st1 viewId = none →
        frameRoute1 st viewId now = (none, some (viewId, 900), st1))
    ∧ frameRoute2 viewId none
        = some (503, [("error", JVal.jstr "no_frame"), ("viewId", JVal.jstr viewId)]) := by
  refine ⟨?_, ?_, rfl⟩
  · intro hrej
    simp [frameRoute1, onHttpFrameRequest, hv, hp, hrej]
  · intro st1 hreq hnf
    simp [frameRoute1, hreq, hnf]

/-- C2 witness: with a one-view limit and `A` active, requesting `B` is
rejected with the 429 body, and the no-frame continuation yields the 503
body. -/
theorem C2_frame_route_witness :
    viewCfgA adSt429 "B" = some { id := "B", url := "http://x/b", enabled := true, busyFps := 10 }
    ∧ adSt429.pool = some onePool
    ∧ (canActivateNow adSt429 "B" 5).1.ok = false
    ∧ frameRoute1 adSt429 "B" 5 =
        (some (429,
          [("error", JVal.jstr "too_many_active_views"),
           ("limit", JVal.jnum (canActivateNow adSt429 "B" 5).1.limit),
           ("activeViews", JVal.jarr (canActivateNow adSt429 "B" 5).1.activeViews),
           ("requested", JVal.jstr "B")]),
         none, (canActivateNow adSt429 "B" 5).2)
    ∧ frameRoute2 "B" none
        = some (503, [("error", JVal.jstr "no_frame"), ("viewId", JVal.jstr "B")]) :=
  ⟨by decide, rfl, by decide,
   (C2_frame_route adSt429 "B" 5
     { id := "B", url := "http://x/b", enabled := true, busyFps := 10 } onePool
     (by decide) rfl).1 (by decide),
   (C2_frame_route adSt429 "B" 5
     { id := "B", url := "http://x/b", enabled := true, busyFps := 10 } onePool
     (by decide) rfl).2.2⟩

/-- A key absent from the waiter map has no waiters. -/
lemma lookupWaiters_nil_of_not_mem (l : List (String × List ℕ)) (id : String)
    (h : id ∉ l.map Prod.fst) : lookupWaiters l id = [] := by
  induction l with
  | nil => rfl
  | cons p rest ih =>
      rw [List.map_cons, List.mem_cons, not_or] at h
      obtain ⟨k, rs⟩ := p
      have hk : k ≠ id := fun he => h.1 he.symm
      simp [lookupWaiters, hk, ih h.2]

/-- Registering a resolver appends it to the view's waiter set. -/
lemma lookupWaiters_addWaiter (l : List (String × List ℕ)) (id : String) (rid : ℕ) :
    lookupWaiters (addWaiter l id rid) id = lookupWaiters l id ++ [rid] := by
  induction l with
  | nil => simp [addWaiter, lookupWaiters]
  | cons p rest ih =>
      obtain ⟨k, rs⟩ := p
      by_cases hk : k = id
      · simp [addWaiter, lookupWaiters, hk]
      · simp [addWaiter, lookupWaiters, hk, ih]

/-- The timeout prune removes the resolver from the view's waiter set. -/
lemma not_mem_lookupWaiters_removeWaiter (l : List (String × List ℕ)) (id : String)
    (rid : ℕ) (hnd : (l.map Prod.fst).Nodup) :
    rid ∉ lookupWaiters (removeWaiter l id rid) id := by
  induction l with
  | nil => simp [removeWaiter, lookupWaiters]
  | cons p rest ih =>
      obtain ⟨k, rs⟩ := p
      rw [List.map_cons, List.nodup_cons] at hnd
      by_cases hk : k = id
      · subst hk
        have hrw : removeWaiter ((k, rs) :: rest) k rid =
            if rs.filter (fun r => decide (r ≠ rid)) = [] then rest
            else (k, rs.filter (fun r => decide (r ≠ rid))) :: rest := by
          simp [removeWaiter]
        rw [hrw]
        by_cases he : rs.filter (fun r => decide (r ≠ rid)) = []
        · rw [if_pos he, lookupWaiters_nil_of_not_mem rest k hnd.1]
          simp
        · rw [if_neg he]
          simp [lookupWaiters, List.mem_filter]
      · simp only [removeWaiter, if_neg hk, lookupWaiters]
        exact ih hnd.2

/-- Frame publication clears the view's waiter set. -/
lemma lookupWaiters_removeWaiterKey (l : List (String × List ℕ)) (id : String)
    (hnd : (l.map Prod.fst).Nodup) :
    lookupWaiters (removeWaiterKey l id) id = [] := by
  induction l with
  | nil => rfl
  | cons p rest ih =>
      obtain ⟨k, rs⟩ := p
      rw [List.map_cons, List.nodup_cons] at hnd
      by_cases hk : k = id
      · subst hk
        rw [show removeWaiterKey ((k, rs) :: rest) k = rest by simp [removeWaiterKey]]
        exact lookupWaiters_nil_of_not_mem rest k hnd.1
      · simp only [removeWaiterKey, if_neg hk, lookupWaiters]
        exact ih hnd.2

/-- C8 counterexample: with the pool present and no frame for `A`, the
claim says `waitForFrame` registers a resolver; with `waitMs = 0` the
source instead resolves `false` synchronously and registers nothing
(src/main.js line 236). -/
theorem C8_wait_for_frame_counterexample :
    adapterGetFrame adStNoFrame "A" = none
    ∧ waitForFrameA adStNoFrame "A" 0 = (.sync false, adStNoFrame)
    ∧ (waitForFrameA adStNoFrame "A" 0).2.frameWaiters = [] := by
  refine ⟨by decide, by decide, by decide⟩

/-- C8 (amended): `_waitForFrame(viewId, waitMs)` resolves `true`
synchronously whenever a (well-formed) frame exists for the trimmed
view-id and the pool is present; otherwise, when `waitMs` floored to a
non-negative integer is positive it registers a resolver (which the next
published frame for that view resolves `true` — last conjunct), while the
timer prunes the resolver and resolves `false`; when the floor is zero it
resolves `false` synchronously without registering
(src/main.js lines 228-255 and 264-277). -/
theorem C8_wait_for_frame_amended (st : AdapterState) (viewId : String)
    (waitMs : Int) (fr : Frame) (rid : ℕ)
    (hnd : (st.frameWaiters.map Prod.fst).Nodup) :
    (st.pool.isSome = true → jsTrim viewId ≠ "" →
      adapterGetFrame st viewId = some fr → fr.etag ≠ "" →
      waitForFrameA st viewId waitMs = (.sync true, st))
    ∧ (st.pool.isSome = true → jsTrim viewId ≠ "" →
        frameTruthy (adapterGetFrame st viewId) = false → 0 < waitMs.toNat →
        waitForFrameA st viewId waitMs
          = (.pending st.nextRid,
             { st with frameWaiters := addWaiter st.frameWaiters (jsTrim viewId) st.nextRid,
                       nextRid := st.nextRid + 1 })
        ∧ st.nextRid ∈
            lookupWaiters (addWaiter st.frameWaiters (jsTrim viewId) st.nextRid) (jsTrim viewId))
    ∧ (frameTruthy (adapterGetFrame st viewId) = false → waitMs.toNat = 0 →
        waitForFrameA st viewId waitMs = (.sync false, st))
    ∧ ((timerFireA st viewId rid).2 = false
        ∧ rid ∉ lookupWaiters (timerFireA st viewId rid).1.frameWaiters (jsTrim viewId))
    ∧ (lookupWaiters st.frameWaiters (jsTrim viewId) ≠ [] →
        (onFrameResolve st viewId).2 = lookupWaiters st.frameWaiters (jsTrim viewId)
        ∧ lookupWaiters (onFrameResolve st viewId).1.frameWaiters (jsTrim viewId) = []) := by
  refine ⟨?_, ?_, ?_, ⟨rfl, ?_⟩, ?_⟩
  · intro hp hid hfr hetag
    have hs : st.pool.isNone = false := by
      cases h : st.pool with
      | none => rw [h] at hp; simp at hp
      | some q => rfl
    simp [waitForFrameA, hid, hs, frameTruthy, hfr, hetag]
  · intro hp hid hft hms
    have hs : st.pool.isNone = false := by
      cases h : st.pool with
      | none => rw [h] at hp; simp at hp
      | some q => rfl
    have hms0 : waitMs.toNat ≠ 0 := by omega
    refine ⟨by simp [waitForFrameA, hid, hs, hft, hms0], ?_⟩
    rw [lookupWaiters_addWaiter]
    simp
  · intro hft hms
    by_cases hid : jsTrim viewId = ""
    · simp [waitForFrameA, hid]
    · cases h : st.pool with
      | none => simp [waitForFrameA, h]
      | some q => simp [waitForFrameA, hid, h, hft, hms]
  · exact not_mem_lookupWaiters_removeWaiter st.frameWaiters (jsTrim viewId) rid hnd
  · intro hws
    simp [onFrameResolve, hws,
      lookupWaiters_removeWaiterKey st.frameWaiters (jsTrim viewId) hnd]

/-- C8 witness: with no frame for `A` and a 900 ms budget, a resolver is
registered; its timer prune and the publish-resolution behave as stated. -/
theorem C8_wait_for_frame_amended_witness :
    (adStNoFrame.frameWaiters.map Prod.fst).Nodup
    ∧ (adStNoFrame.pool.isSome = true → jsTrim "A" ≠ "" →
        frameTruthy (adapterGetFrame adStNoFrame "A") = false → 0 < (900 : Int).toNat →
        waitForFrameA adStNoFrame "A" 900
          = (.pending adStNoFrame.nextRid,
             { adStNoFrame with
                frameWaiters := addWaiter adStNoFrame.frameWaiters (jsTrim "A") adStNoFrame.nextRid,
                nextRid := adStNoFrame.nextRid + 1 })
        ∧ adStNoFrame.nextRid ∈
            lookupWaiters (addWaiter adStNoFrame.frameWaiters (jsTrim "A") adStNoFrame.nextRid)
              (jsTrim "A")) :=
  ⟨by decide,
   (C8_wait_for_frame_amended adStNoFrame "A" 900 { png := [], etag := "", ts := 0 } 0
     (by decide)).2.1⟩

/-- Membership after a `Set.add`. -/
lemma mem_insertIfAbsent (l : List String) (v x : String) :
    x ∈ insertIfAbsent l v ↔ x ∈ l ∨ x = v := by
  unfold insertIfAbsent
  by_cases h : v ∈ l
  · rw [if_pos h]
    constructor
    · exact Or.inl
    · rintro (hx | rfl)
      · exact hx
      · exact h
  · rw [if_neg h]
    simp

/-- `Set.add` keeps the element list duplicate-free. -/
lemma nodup_insertIfAbsent (l : List String) (v : String) (h : l.Nodup) :
    (insertIfAbsent l v).Nodup := by
  unfold insertIfAbsent
  by_cases hv : v ∈ l
  · rw [if_pos hv]
    exact h
  · rw [if_neg hv]
    simp [List.nodup_append, h, hv]

/-- Membership in a fold of `Set.add`s. -/
lemma mem_foldl_insertIfAbsent (xs : List String) :
    ∀ (init : List String) (x : String),
      x ∈ xs.foldl insertIfAbsent init ↔ x ∈ init ∨ x ∈ xs := by
  induction xs with
  | nil => intro init x; simp
  | cons a rest ih =>
      intro init x
      rw [List.foldl_cons, ih, mem_insertIfAbsent]
      simp [List.mem_cons]
      tauto

/-- A fold of `Set.add`s preserves duplicate-freedom. -/
lemma nodup_foldl_insertIfAbsent (xs : List String) :
    ∀ init : List String, init.Nodup → (xs.foldl insertIfAbsent init).Nodup := by
  induction xs with
  | nil => intro init h; simpa
  | cons a rest ih =>
      intro init h
      rw [List.foldl_cons]
      exact ih _ (nodup_insertIfAbsent init a h)

/-- Membership in the reservation fold of `_activeViewsNow`. -/
lemma mem_foldl_pending (now : ℕ) (ps : List (String × ℕ)) :
    ∀ (init : List String) (x : String),
      x ∈ ps.foldl (fun acc kv => if now < kv.2 then insertIfAbsent acc kv.1 else acc) init
        ↔ x ∈ init ∨ ∃ kv, kv ∈ ps ∧ now < kv.2 ∧ kv.1 = x := by
  induction ps with
  | nil => intro init x; simp
  | cons p rest ih =>
      intro init x
      rw [List.foldl_cons]
      by_cases hp : now < p.2
      · rw [if_pos hp]
        rw [ih, mem_insertIfAbsent]
        constructor
        · rintro ((hx | rfl) | ⟨kv, hkv, h2, h3⟩)
          · exact Or.inl hx
          · exact Or.inr ⟨p, List.mem_cons_self p rest, hp, rfl⟩
          · exact Or.inr ⟨kv, List.mem_cons_of_mem p hkv, h2, h3⟩
        · rintro (hx | ⟨kv, hkv, h2, h3⟩)
          · exact Or.inl (Or.inl hx)
          · rcases List.mem_cons.mp hkv with rfl | hkv2
            · exact Or.inl (Or.inr h3.symm)
            · exact Or.inr ⟨kv, hkv2, h2, h3⟩
      · rw [if_neg hp, ih]
        constructor
        · rintro (hx | ⟨kv, hkv, h2, h3⟩)
          · exact Or.inl hx
          · exact Or.inr ⟨kv, List.mem_cons_of_mem p hkv, h2, h3⟩
        · rintro (hx | ⟨kv, hkv, h2, h3⟩)
          · exact Or.inl hx
          · rcases List.mem_cons.mp hkv with rfl | hkv2
            · exact absurd h2 hp
            · exact Or.inr ⟨kv, hkv2, h2, h3⟩

/-- The reservation fold preserves duplicate-freedom. -/
lemma nodup_foldl_pending (now : ℕ) (ps : List (String × ℕ)) :
    ∀ init : List String, init.Nodup →
      (ps.foldl (fun acc kv => if now < kv.2 then insertIfAbsent acc kv.1 else acc)
        init).Nodup := by
  induction ps with
  | nil => intro init h; simpa
  | cons p rest ih =>
      intro init h
      rw [List.foldl_cons]
      by_cases hp : now < p.2
      · rw [if_pos hp]
        exact ih _ (nodup_insertIfAbsent init p.1 h)
      · rw [if_neg hp]
        exact ih _ h

/-- The list built by `_activeViewsNow` enumerates exactly the spec's
admission set. -/
lemma activeViewsNowList_mem (st : AdapterState) (now : ℕ) (x : String) :
    x ∈ activeViewsNowList st now ↔ x ∈ specActiveSet st now := by
  unfold activeViewsNowList specActiveSet
  rw [mem_foldl_pending, mem_foldl_insertIfAbsent]
  cases hp : st.pool with
  | none =>
      simp
      constructor
      · rintro ⟨a, b, hab, h2, rfl⟩
        exact ⟨b, hab, h2⟩
      · rintro ⟨b, hab, h2⟩
        exact ⟨x, b, hab, h2, rfl⟩
  | some p =>
      simp only [List.not_mem_nil, false_or, Finset.mem_union, List.mem_toFinset,
        List.mem_map, List.mem_filter]
      constructor
      · rintro (hb | ⟨kv, hkv, h2, h3⟩)
        · exact Or.inl hb
        · exact Or.inr ⟨kv, ⟨hkv, by simpa using h2⟩, h3⟩
      · rintro (hb | ⟨kv, ⟨hkv, h2⟩, h3⟩)
        · exact Or.inl hb
        · exact Or.inr ⟨kv, hkv, by simpa using h2, h3⟩

/-- `_activeViewsNow` builds a duplicate-free list. -/
lemma activeViewsNowList_nodup (st : AdapterState) (now : ℕ) :
    (activeViewsNowList st now).Nodup := by
  unfold activeViewsNowList
  exact nodup_foldl_pending now st.pendingActive _
    (nodup_foldl_insertIfAbsent _ [] List.nodup_nil)

/-- The size of the built set equals the spec set's cardinality. -/
lemma activeViewsNowList_length (st : AdapterState) (now : ℕ) :
    (activeViewsNowList st now).length = (specActiveSet st now).card := by
  rw [← List.toFinset_card_of_nodup (activeViewsNowList_nodup st now)]
  congr 1
  ext x
  rw [List.mem_toFinset]
  exact activeViewsNowList_mem st now x

/-- The opportunistic pruning of `_canActivateNow`. -/
lemma canActivateNow_snd (st : AdapterState) (viewId : String) (now : ℕ) :
    (canActivateNow st viewId now).2 = pruneExpired st now := by
  simp only [canActivateNow]
  split
  · rfl
  · split <;> split <;> rfl

/-- C4: the admission decision admits a view-id already in the set of
currently active view-ids unioned with unexpired reservations, else
admits iff that set's size is strictly below `maxActiveViews` clamped to
`[1, 10]`; and every admission query prunes the expired reservations
(src/main.js lines 398-428). -/
theorem C4_admission_decision (st : AdapterState) (viewId : String) (now : ℕ)
    (hm : 1 ≤ st.cfgMaxActiveViews) :
    ((canActivateNow st viewId now).1.ok = true ↔
      (jsTrim viewId ∈ specActiveSet st now
        ∨ (specActiveSet st now).card < min 10 (max 1 st.cfgMaxActiveViews)))
    ∧ (canActivateNow st viewId now).2.pendingActive
        = st.pendingActive.filter fun kv => decide (now < kv.2) := by
  have hmem := activeViewsNowList_mem st now (jsTrim viewId)
  have hlen := activeViewsNowList_length st now
  have h0 : ¬ st.cfgMaxActiveViews = 0 := by omega
  refine ⟨?_, by rw [canActivateNow_snd]; simp [pruneExpired]⟩
  simp only [canActivateNow, if_neg h0]
  by_cases hin : jsTrim viewId ∈ activeViewsNowList st now
  · rw [if_pos hin]
    simp [hmem.mp hin]
  · rw [if_neg hin]
    by_cases hsz :
        min 10 (max 1 st.cfgMaxActiveViews) ≤ (activeViewsNowList st now).length
    · rw [if_pos hsz]
      simp only [Bool.false_eq_true, false_iff, not_or, not_lt]
      exact ⟨fun hx => hin (hmem.mpr hx), hlen ▸ hsz⟩
    · rw [if_neg hsz]
      simp only [true_iff]
      exact Or.inr (hlen ▸ (by omega : (activeViewsNowList st now).length
        < min 10 (max 1 st.cfgMaxActiveViews)))

/-- C4 witness: a view with an unexpired reservation is admitted, and the
query prunes nothing else. -/
theorem C4_admission_decision_witness :
    1 ≤ adStReserved.cfgMaxActiveViews
    ∧ (((canActivateNow adStReserved "A" 5).1.ok = true ↔
        (jsTrim "A" ∈ specActiveSet adStReserved 5
          ∨ (specActiveSet adStReserved 5).card
              < min 10 (max 1 adStReserved.cfgMaxActiveViews)))
      ∧ (canActivateNow adStReserved "A" 5).2.pendingActive
          = adStReserved.pendingActive.filter fun kv => decide (5 < kv.2)) :=
  ⟨by decide, C4_admission_decision adStReserved "A" 5 (by decide)⟩

/-- Carrying the probe invariant across a step that keeps the interval
bounds and either keeps `probeMs` or resets it to the minimum. -/
lemma probeInv_carry {s s2 : SessionState}
    (hmin : s2.captureMinIntervalMs = s.captureMinIntervalMs)
    (hmax : s2.captureMaxIntervalMs = s.captureMaxIntervalMs)
    (hp : s2.probeMs = s.probeMs ∨ s2.probeMs = s.captureMinIntervalMs)
    (hi : ProbeInv s) : ProbeInv s2 := by
  obtain ⟨h1, h2⟩ := hi
  unfold ProbeInv
  rcases hp with hp | hp <;> rw [hmin, hmax, hp] <;> exact ⟨by omega, by omega⟩

/-- A fresh session starts with `probeMs` at the minimum. -/
lemma probeInv_mkSession (cmin cmax ar : ℕ) (cb : Bool) :
    ProbeInv (mkSession cmin cmax ar cb) := by
  unfold mkSession ProbeInv
  exact ⟨le_refl _, Nat.le_max_left _ _⟩

/-- `setView` re-establishes the probe invariant (also when it tightens
the interval bounds). -/
lemma probeInv_sessSetView (s : SessionState) (id url : String) (minMs : ℕ)
    (hi : ProbeInv s) : ProbeInv (sessSetView s id url minMs) := by
  obtain ⟨h1, h2⟩ := hi
  simp only [sessSetView]
  split
  · exact ⟨le_refl _, Nat.le_max_left _ _⟩
  · exact ⟨le_refl _, le_trans h1 h2⟩

/-- `tick` keeps the interval bounds and only ever resets `probeMs`. -/
lemma probeInv_sessTick (s : SessionState) (now g c : ℕ) (hi : ProbeInv s) :
    ProbeInv (sessTick s now g c) := by
  refine probeInv_carry ?_ ?_ ?_ hi <;>
    · simp only [sessTick, sessClosePage, sessGotoOk]
      repeat' split
      all_goals simp

/-- The publish/backoff tail preserves the probe invariant: a publish
resets `probeMs`, a backoff stays within `[min, max]` because
`floor (1.5 * probeMs) ≥ probeMs`. -/
lemma probeInv_processCapture (s : SessionState) (lct : ℕ) (fr : Frame)
    (hi : ProbeInv s) : ProbeInv (processCapture s lct fr).1 := by
  obtain ⟨h1, h2⟩ := hi
  have hcc : s.captureMinIntervalMs ≤ s.captureMaxIntervalMs := le_trans h1 h2
  have hgrow : s.probeMs ≤ s.probeMs * 3 / 2 :=
    (Nat.le_div_iff_mul_le (by norm_num)).mpr (by omega)
  cases hl : s.lastFrame with
  | none =>
      simp only [processCapture, hl]
      exact ⟨le_refl _, hcc⟩
  | some f0 =>
      by_cases he : f0.etag = fr.etag
      · have hch : decide (f0.etag ≠ fr.etag) = false := by simp [he]
        simp only [processCapture, hl, hch, Bool.false_eq_true, if_false]
        exact ⟨Nat.le_min.mpr ⟨hcc, le_trans h1 hgrow⟩, Nat.min_le_left _ _⟩
      · have hch : decide (f0.etag ≠ fr.etag) = true := by simp [he]
        simp only [processCapture, hl, hch, if_true]
        exact ⟨le_refl _, hcc⟩

/-- Every session mutation preserves the probe invariant. -/
lemma probeInv_sessStep {s s2 : SessionState} (hi : ProbeInv s) (h : SessStep s s2) :
    ProbeInv s2 := by
  obtain ⟨h1, h2⟩ := hi
  cases h with
  | setView id url minMs => exact probeInv_sessSetView s id url minMs ⟨h1, h2⟩
  | subscribe => exact ⟨h1, h2⟩
  | unsubscribe now =>
      simp only [sessUnsubscribe]
      split <;> exact ⟨h1, h2⟩
  | touchHttp now => exact ⟨h1, h2⟩
  | tick now g c => exact probeInv_sessTick s now g c ⟨h1, h2⟩
  | stop =>
      simp only [sessStop, sessClosePage]
      split <;> exact ⟨h1, h2⟩
  | closePage =>
      simp only [sessClosePage]
      split <;> exact ⟨h1, h2⟩
  | ensurePage => split <;> exact ⟨h1, h2⟩
  | rebindCtx b => exact ⟨h1, h2⟩
  | startLoop => exact ⟨h1, h2⟩
  | gotoOk url now =>
      simp only [sessGotoOk]
      split
      · exact ⟨le_refl _, le_trans h1 h2⟩
      · exact ⟨h1, h2⟩
  | gotoFail msg =>
      simp only [sessGotoFail]
      split <;> exact ⟨h1, h2⟩
  | reloadOk now =>
      simp only [sessReloadOk]
      split
      · exact ⟨h1, h2⟩
      · split
        · exact ⟨le_refl _, le_trans h1 h2⟩
        · exact ⟨h1, h2⟩
  | reloadFail msg =>
      simp only [sessReloadFail]
      split
      · exact ⟨h1, h2⟩
      · split <;> exact ⟨h1, h2⟩
  | reloadFlagClear => exact ⟨h1, h2⟩
  | reloadFlagRaise => exact ⟨h1, h2⟩
  | captureFlagClear => exact ⟨h1, h2⟩
  | dirtyReset => exact ⟨le_refl _, le_trans h1 h2⟩
  | capture lct png ts => exact probeInv_processCapture s lct (capturePng png ts) ⟨h1, h2⟩
  | loopError msg => exact ⟨h1, h2⟩

/-- C6: in every session state reachable from construction by `setView`
calls (including busyFps-driven interval changes) and capture-loop
iterations (resets, 1.5-factor backoffs, reloads, errors),
`captureMinIntervalMs ≤ probeMs ≤ captureMaxIntervalMs`
(src/lib/renderer.js lines 40-79 and 341-420). -/
theorem C6_probe_within_bounds (cmin cmax ar : ℕ) (cb : Bool) (s : SessionState)
    (h : SessReachable (mkSession cmin cmax ar cb) s) :
    s.captureMinIntervalMs ≤ s.probeMs ∧ s.probeMs ≤ s.captureMaxIntervalMs := by
  induction h with
  | refl => exact probeInv_mkSession cmin cmax ar cb
  | tail hs hstep ih => exact probeInv_sessStep ih hstep

/-- C6 witness: the freshly constructed session is reachable and in
bounds. -/
theorem C6_probe_within_bounds_witness :
    SessReachable (mkSession 200 2000 0 false) (mkSession 200 2000 0 false)
    ∧ ((mkSession 200 2000 0 false).captureMinIntervalMs
          ≤ (mkSession 200 2000 0 false).probeMs
        ∧ (mkSession 200 2000 0 false).probeMs
            ≤ (mkSession 200 2000 0 false).captureMaxIntervalMs) :=
  ⟨Relation.ReflTransGen.refl,
   C6_probe_within_bounds 200 2000 0 false (mkSession 200 2000 0 false)
     Relation.ReflTransGen.refl⟩

/-- A `countP` over fewer-satisfying predicates counts no more. -/
lemma countP_le_of_imp {α : Type} (l : List α) (pt pn : α → Bool)
    (h : ∀ q ∈ l, pt q = true → pn q = true) : l.countP pt ≤ l.countP pn := by
  induction l with
  | nil => simp
  | cons a rest ih =>
      rw [List.countP_cons, List.countP_cons]
      have hr := ih fun q hq => h q (List.mem_cons_of_mem a hq)
      by_cases ha : pt a = true
      · rw [ha, h a (List.mem_cons_self a rest) ha]
        omega
      · rw [Bool.not_eq_true] at ha
        rw [ha]
        simp only [Bool.false_eq_true, if_false]
        by_cases hb : pn a = true <;> simp [hb] <;> omega

/-- A found key is among the keys. -/
lemma lookupStr_some_mem_keys {α : Type} {l : List (String × α)} {id : String} {v : α}
    (h : lookupStr l id = some v) : id ∈ l.map Prod.fst := by
  induction l with
  | nil => simp [lookupStr] at h
  | cons p rest ih =>
      obtain ⟨k, s⟩ := p
      by_cases hk : k = id
      · simp [hk]
      · rw [show lookupStr ((k, s) :: rest) id = lookupStr rest id by simp [lookupStr, hk]] at h
        simp [ih h]

/-- An absent key means no entry carries it. -/
lemma lookupStr_none_forall {α : Type} {l : List (String × α)} {id : String}
    (h : lookupStr l id = none) : ∀ q ∈ l, q.1 ≠ id := by
  induction l with
  | nil => simp
  | cons p rest ih =>
      obtain ⟨k, s⟩ := p
      by_cases hk : k = id
      · simp [lookupStr, hk] at h
      · rw [show lookupStr ((k, s) :: rest) id = lookupStr rest id by simp [lookupStr, hk]] at h
        intro q hq
        rcases List.mem_cons.mp hq with rfl | hq2
        · exact hk
        · exact ih h q hq2

/-- `updateSession` keeps the key list. -/
lemma updateSession_keys (l : List (String × SessionState)) (id : String)
    (f : SessionState → SessionState) :
    (updateSession l id f).map Prod.fst = l.map Prod.fst := by
  unfold updateSession
  rw [List.map_map]
  apply List.map_congr_left
  intro p _
  by_cases h : p.1 = id <;> simp [h]

/-- A key outside the key list marks no entry. -/
lemma keys_not_mem_absent {l : List (String × SessionState)} {id : String}
    (h : id ∉ l.map Prod.fst) : ∀ q ∈ l, q.1 ≠ id := by
  intro q hq he
  exact h (he ▸ List.mem_map_of_mem Prod.fst hq)

/-- `updateSession` of an absent key does nothing. -/
lemma updateSession_of_absent (l : List (String × SessionState)) (id : String)
    (f : SessionState → SessionState) (h : ∀ q ∈ l, q.1 ≠ id) :
    updateSession l id f = l := by
  unfold updateSession
  conv_rhs => rw [← List.map_id l]
  apply List.map_congr_left
  intro p hp
  simp [h p hp]

/-- Two in-place updates of the same key compose. -/
lemma updateSession_comp (l : List (String × SessionState)) (id : String)
    (f g : SessionState → SessionState) :
    updateSession (updateSession l id f) id g = updateSession l id fun s => g (f s) := by
  unfold updateSession
  rw [List.map_map]
  apply List.map_congr_left
  intro p _
  by_cases h : p.1 = id <;> simp [h]

/-- `updateSession` distributes over an appended entry. -/
lemma updateSession_append (l : List (String × SessionState)) (id : String)
    (s : SessionState) (f : SessionState → SessionState) :
    updateSession (l ++ [(id, s)]) id f = updateSession l id f ++ [(id, f s)] := by
  unfold updateSession
  rw [List.map_append]
  simp

/-- An in-place update changes `countP` by at most one. -/
lemma countP_updateSession_le_succ (l : List (String × SessionState)) (id : String)
    (f : SessionState → SessionState) (p : String × SessionState → Bool)
    (hnd : (l.map Prod.fst).Nodup) :
    (updateSession l id f).countP p ≤ l.countP p + 1 := by
  induction l with
  | nil => simp [updateSession]
  | cons q rest ih =>
      obtain ⟨k, s⟩ := q
      rw [List.map_cons, List.nodup_cons] at hnd
      by_cases hk : k = id
      · subst hk
        rw [show updateSession ((k, s) :: rest) k f
            = (k, f s) :: updateSession rest k f by simp [updateSession]]
        rw [updateSession_of_absent rest k f (keys_not_mem_absent hnd.1)]
        rw [List.countP_cons, List.countP_cons]
        by_cases h1 : p (k, f s) = true <;> by_cases h2 : p (k, s) = true <;>
          simp [h1, h2] <;> omega
      · rw [show updateSession ((k, s) :: rest) id f
            = (k, s) :: updateSession rest id f by simp [updateSession, hk]]
        rw [List.countP_cons, List.countP_cons]
        have := ih hnd.2
        omega

/-- An in-place update of an entry already satisfying `p` cannot raise
`countP p`. -/
lemma countP_updateSession_le_of_true (l : List (String × SessionState)) (id : String)
    (f : SessionState → SessionState) (p : String × SessionState → Bool) (s0 : SessionState)
    (hnd : (l.map Prod.fst).Nodup) (hlk : lookupStr l id = some s0)
    (hp : p (id, s0) = true) :
    (updateSession l id f).countP p ≤ l.countP p := by
  induction l with
  | nil => simp [updateSession]
  | cons q rest ih =>
      obtain ⟨k, s⟩ := q
      rw [List.map_cons, List.nodup_cons] at hnd
      by_cases hk : k = id
      · subst hk
        rw [show lookupStr ((k, s) :: rest) k = some s by simp [lookupStr]] at hlk
        injection hlk with hs
        subst hs
        rw [show updateSession ((k, s) :: rest) k f
            = (k, f s) :: updateSession rest k f by simp [updateSession]]
        rw [updateSession_of_absent rest k f (keys_not_mem_absent hnd.1)]
        rw [List.countP_cons, List.countP_cons, hp]
        by_cases h1 : p (k, f s) = true <;> simp [h1] <;> omega
      · rw [show lookupStr ((k, s) :: rest) id = lookupStr rest id by simp [lookupStr, hk]] at hlk
        rw [show updateSession ((k, s) :: rest) id f
            = (k, s) :: updateSession rest id f by simp [updateSession, hk]]
        rw [List.countP_cons, List.countP_cons]
        have := ih hnd.2 hlk
        omega

/-- A key satisfying `pn` but not `pt` makes the `pt`-count strictly
smaller, given `pt` implies `pn` entrywise. -/
lemma countP_lt_of_flip (l : List (String × SessionState)) (id : String)
    (s0 : SessionState) (pt pn : String × SessionState → Bool)
    (hnd : (l.map Prod.fst).Nodup) (hlk : lookupStr l id = some s0)
    (hn : pn (id, s0) = true) (htf : pt (id, s0) = false)
    (hmono : ∀ q ∈ l, pt q = true → pn q = true) :
    l.countP pt < l.countP pn := by
  induction l with
  | nil => simp [lookupStr] at hlk
  | cons q rest ih =>
      obtain ⟨k, s⟩ := q
      rw [List.map_cons, List.nodup_cons] at hnd
      rw [List.countP_cons, List.countP_cons]
      by_cases hk : k = id
      · subst hk
        rw [show lookupStr ((k, s) :: rest) k = some s by simp [lookupStr]] at hlk
        injection hlk with hs
        subst hs
        have hmr := countP_le_of_imp rest pt pn fun q hq => hmono q (List.mem_cons_of_mem _ hq)
        rw [htf, hn]
        simp only [Bool.false_eq_true, if_false, if_true]
        omega
      · rw [show lookupStr ((k, s) :: rest) id = lookupStr rest id by simp [lookupStr, hk]] at hlk
        have hlt := ih hnd.2 hlk fun q hq => hmono q (List.mem_cons_of_mem _ hq)
        have hh : pt (k, s) = true → pn (k, s) = true := hmono (k, s) (List.mem_cons_self _ _)
        by_cases h1 : pt (k, s) = true
        · rw [h1, hh h1]
          omega
        · rw [Bool.not_eq_true] at h1
          rw [h1]
          by_cases h2 : pn (k, s) = true <;> simp [h2] <;> omega

/-- `wanted` is antitone in the query time: a view wanted later was
already wanted earlier. -/
lemma wanted_anti (s : SessionState) (g t1 t2 : ℕ) (h12 : t1 ≤ t2)
    (hw : wanted s t2 g = true) : wanted s t1 g = true := by
  unfold wanted at hw ⊢
  by_cases hs : 0 < s.subscribers
  · simp [hs]
  · simp only [if_neg hs] at hw ⊢
    by_cases hl : max s.lastHttpSeenTs s.lastInactiveTs = 0
    · simp [hl] at hw
    · simp only [if_neg hl, decide_eq_true_eq] at hw ⊢
      omega

/-- `wanted` depends only on the subscriber count and the two activity
timestamps. -/
lemma wanted_congr {s1 s2 : SessionState}
    (hsub : s2.subscribers = s1.subscribers)
    (hh : s2.lastHttpSeenTs = s1.lastHttpSeenTs)
    (hi : s2.lastInactiveTs = s1.lastInactiveTs) (t g : ℕ) :
    wanted s2 t g = wanted s1 t g := by
  unfold wanted
  rw [hsub, hh, hi]

/-- `tick` never touches the wantedness fields. -/
lemma sessTick_wanted_fields (s : SessionState) (now g c : ℕ) :
    (sessTick s now g c).subscribers = s.subscribers
    ∧ (sessTick s now g c).lastHttpSeenTs = s.lastHttpSeenTs
    ∧ (sessTick s now g c).lastInactiveTs = s.lastInactiveTs := by
  refine ⟨?_, ?_, ?_⟩ <;>
    · simp only [sessTick, sessClosePage, sessGotoOk]
      repeat' split
      all_goals simp

/-- `stop` never touches the wantedness fields. -/
lemma sessStop_wanted_fields (s : SessionState) :
    (sessStop s).subscribers = s.subscribers
    ∧ (sessStop s).lastHttpSeenTs = s.lastHttpSeenTs
    ∧ (sessStop s).lastInactiveTs = s.lastInactiveTs := by
  refine ⟨?_, ?_, ?_⟩ <;>
    · simp only [sessStop, sessClosePage]
      repeat' split
      all_goals simp

/-- `setView` (and the context/loop rebinding around it) never touches
the wantedness fields. -/
lemma bindSession_wanted_fields (st : PoolState) (cfg : ViewCfg) (id url : String)
    (s : SessionState) :
    (bindSession st cfg id url s).subscribers = s.subscribers
    ∧ (bindSession st cfg id url s).lastHttpSeenTs = s.lastHttpSeenTs
    ∧ (bindSession st cfg id url s).lastInactiveTs = s.lastInactiveTs := by
  refine ⟨?_, ?_, ?_⟩ <;>
    · simp only [bindSession, sessSetView]
      repeat' split
      all_goals simp

/-- A subscribed session is wanted at every time. -/
lemma wanted_sessSubscribe (s : SessionState) (t g : ℕ) :
    wanted (sessSubscribe s) t g = true := by
  unfold wanted sessSubscribe
  simp

/-- A `countP` over entries is unchanged by an entrywise map that
preserves the predicate. -/
lemma countP_map_congr {α : Type} (l : List α) (g : α → α) (p : α → Bool)
    (h : ∀ q ∈ l, p (g q) = p q) : (l.map g).countP p = l.countP p := by
  induction l with
  | nil => simp
  | cons a rest ih =>
      rw [List.map_cons, List.countP_cons, List.countP_cons,
        h a (List.mem_cons_self a rest), ih fun q hq => h q (List.mem_cons_of_mem a hq)]

/-- The active-view list has as many entries as the wanted count. -/
lemma activeList_length (st : PoolState) (t : ℕ) :
    (activeList st t).length = activeCount st t := by
  unfold activeList activeCount
  rw [List.length_map, ← List.countP_eq_length_filter]

/-- A member of the active list is a stored wanted session. -/
lemma mem_activeList_lookup {l : List (String × SessionState)}
    {p : String × SessionState → Bool} {id : String}
    (hnd : (l.map Prod.fst).Nodup)
    (h : id ∈ (l.filter p).map Prod.fst) :
    ∃ s0, lookupStr l id = some s0 ∧ p (id, s0) = true := by
  induction l with
  | nil => simp at h
  | cons q rest ih =>
      obtain ⟨k, s⟩ := q
      rw [List.map_cons, List.nodup_cons] at hnd
      by_cases hk : k = id
      · subst hk
        refine ⟨s, by simp [lookupStr], ?_⟩
        by_cases hp : p (k, s) = true
        · exact hp
        · rw [Bool.not_eq_true] at hp
          rw [show List.filter p ((k, s) :: rest) = List.filter p rest by simp [hp]] at h
          obtain ⟨s1, hs1, _⟩ := ih hnd.2 h
          exact absurd (lookupStr_some_mem_keys hs1) hnd.1
      · have h2 : id ∈ (rest.filter p).map Prod.fst := by
          by_cases hp : p (k, s) = true
          · rw [show List.filter p ((k, s) :: rest) = (k, s) :: List.filter p rest by
              simp [hp]] at h
            rcases List.mem_cons.mp h with he | h3
            · exact absurd he.symm hk
            · exact h3
          · rw [Bool.not_eq_true] at hp
            rw [show List.filter p ((k, s) :: rest) = List.filter p rest by simp [hp]] at h
            exact h
        obtain ⟨s0, hs0, hps⟩ := ih hnd.2 h2
        exact ⟨s0, by simp [lookupStr, hk, hs0], hps⟩

/-- The gate of `_canActivate`: admitted iff already active or below the
cap. -/
lemma canActivatePriv_ok_iff (st : PoolState) (id : String) (now : ℕ) :
    (canActivatePriv st id now).ok = true ↔
      id ∈ activeList st now ∨ activeCount st now < st.maxActiveViews := by
  simp only [canActivatePriv]
  by_cases h : id ∈ activeList st now
  · rw [if_pos h]
    simp [h]
  · rw [if_neg h]
    by_cases h2 : st.maxActiveViews ≤ (activeList st now).length
    · rw [if_pos h2]
      rw [activeList_length] at h2
      simp [h]
      omega
    · rw [if_neg h2]
      rw [activeList_length] at h2
      simp [h]
      omega

/-- A singleton contributes at most one to a `countP`. -/
lemma countP_singleton_le_one {α : Type} (x : α) (p : α → Bool) :
    ([x] : List α).countP p ≤ 1 := by
  by_cases h : p x = true <;> simp [List.countP_cons, h]

/-- An absent key is outside the key list. -/
lemma lookupStr_none_not_mem_keys {α : Type} {l : List (String × α)} {id : String}
    (h : lookupStr l id = none) : id ∉ l.map Prod.fst := by
  intro hmem
  obtain ⟨q, hq, hq1⟩ := List.mem_map.mp hmem
  exact lookupStr_none_forall h q hq hq1

/-- Updating an admitted key keeps the wanted count below the cap at
every present-or-future time. -/
lemma countP_update_bound (l : List (String × SessionState)) (id : String)
    (g : SessionState → SessionState) (grace maxA t now : ℕ) (s0 : SessionState)
    (hnd : (l.map Prod.fst).Nodup)
    (hlk : lookupStr l id = some s0)
    (ht : now ≤ t)
    (hInvT : l.countP (fun q => wanted q.2 t grace) ≤ maxA)
    (hInvN : l.countP (fun q => wanted q.2 now grace) ≤ maxA)
    (hadm : wanted s0 now grace = true
            ∨ l.countP (fun q => wanted q.2 now grace) < maxA) :
    (updateSession l id g).countP (fun q => wanted q.2 t grace) ≤ maxA := by
  by_cases hpt : wanted s0 t grace = true
  · exact le_trans (countP_updateSession_le_of_true l id g _ s0 hnd hlk hpt) hInvT
  · have hle := countP_updateSession_le_succ l id g (fun q => wanted q.2 t grace) hnd
    rcases hadm with hw | hsz
    · have hlt := countP_lt_of_flip l id s0 (fun q => wanted q.2 t grace)
        (fun q => wanted q.2 now grace) hnd hlk hw (by simpa using hpt)
        fun q _ hq => wanted_anti q.2 grace now t ht hq
      omega
    · have hmono := countP_le_of_imp l (fun q => wanted q.2 t grace)
        (fun q => wanted q.2 now grace) fun q _ hq => wanted_anti q.2 grace now t ht hq
      omega

/-- Appending a fresh admitted key keeps the wanted count below the cap
at every present-or-future time. -/
lemma countP_append_bound (l : List (String × SessionState)) (id : String)
    (snew : SessionState) (grace maxA t now : ℕ)
    (ht : now ≤ t)
    (hsz : l.countP (fun q => wanted q.2 now grace) < maxA) :
    (l ++ [(id, snew)]).countP (fun q => wanted q.2 t grace) ≤ maxA := by
  rw [List.countP_append]
  have hmono := countP_le_of_imp l (fun q => wanted q.2 t grace)
    (fun q => wanted q.2 now grace) fun q _ hq => wanted_anti q.2 grace now t ht hq
  have hone := countP_singleton_le_one ((id : String), snew)
    (fun q => wanted q.2 t grace)
  omega

/-- The three outcomes of `_ensureSession`: blank id or url (no session
touched), rebinding an existing session, or appending a fresh one. -/
lemma ensureSessionSt_cases (st : PoolState) (cfg : ViewCfg) :
    (ensureSessionSt st cfg = ({ st with browserOpen := true }, none))
    ∨ (∃ s0, lookupStr st.sessions (jsTrim cfg.id) = some s0 ∧
        ensureSessionSt st cfg =
          ({ st with browserOpen := true,
                     sessions := updateSession st.sessions (jsTrim cfg.id)
                       (bindSession { st with browserOpen := true } cfg (jsTrim cfg.id)
                         (jsTrim cfg.url)) },
           some (jsTrim cfg.id)))
    ∨ (lookupStr st.sessions (jsTrim cfg.id) = none ∧
        ensureSessionSt st cfg =
          ({ st with browserOpen := true,
                     sessions := st.sessions ++ [((jsTrim cfg.id),
                       bindSession { st with browserOpen := true } cfg (jsTrim cfg.id)
                         (jsTrim cfg.url)
                         (mkSession st.captureMinIntervalMs st.captureMaxIntervalMs
                           st.autoReloadMs st.cacheBustOnReload))] },
           some (jsTrim cfg.id))) := by
  simp only [ensureSessionSt]
  by_cases he : jsTrim cfg.id = "" ∨ jsTrim cfg.url = ""
  · rw [if_pos he]
    exact Or.inl rfl
  · rw [if_neg he]
    cases hL : lookupStr st.sessions (jsTrim cfg.id) with
    | some s0 => exact Or.inr (Or.inl ⟨s0, rfl, rfl⟩)
    | none => exact Or.inr (Or.inr ⟨rfl, rfl⟩)

/-- Entry maps that keep the key leave the key list unchanged. -/
lemma map_fst_entry_map (l : List (String × SessionState))
    (f : String × SessionState → SessionState) :
    (l.map fun p => (p.1, f p)).map Prod.fst = l.map Prod.fst := by
  rw [List.map_map]
  apply List.map_congr_left
  intro p _
  rfl

/-- Ticking every session leaves the wanted count unchanged. -/
lemma countP_wanted_mapTick (l : List (String × SessionState)) (now g c t g2 : ℕ) :
    ((l.map fun p => (p.1, sessTick p.2 now g c)).countP fun q => wanted q.2 t g2)
      = l.countP fun q => wanted q.2 t g2 := by
  apply countP_map_congr
  intro q _
  exact wanted_congr (sessTick_wanted_fields q.2 now g c).1
    (sessTick_wanted_fields q.2 now g c).2.1 (sessTick_wanted_fields q.2 now g c).2.2 t g2

/-- Stopping every session (browser close) leaves the wanted count
unchanged. -/
lemma countP_wanted_mapStop (l : List (String × SessionState)) (t g2 : ℕ) :
    ((l.map fun p => (p.1, { sessStop p.2 with ctxPresent := false })).countP
        fun q => wanted q.2 t g2)
      = l.countP fun q => wanted q.2 t g2 := by
  apply countP_map_congr
  intro q _
  exact wanted_congr (sessStop_wanted_fields q.2).1 (sessStop_wanted_fields q.2).2.1
    (sessStop_wanted_fields q.2).2.2 t g2

/-- The cap invariant survives an admitted in-place rebind of an
existing session, whatever the rebinding does to it. -/
lemma pres_after_admit_update (st : PoolState) (cfg : ViewCfg) (now : ℕ)
    (F : SessionState → SessionState) (s0 : SessionState)
    (hnd : poolKeysNodup st) (hI2 : InvUpto st now)
    (hadm : jsTrim cfg.id ∈ activeList st now ∨ activeCount st now < st.maxActiveViews)
    (hlk : lookupStr st.sessions (jsTrim cfg.id) = some s0) :
    poolKeysNodup { st with
        browserOpen := true,
        sessions := updateSession st.sessions (jsTrim cfg.id) F }
    ∧ InvUpto { st with
        browserOpen := true,
        sessions := updateSession st.sessions (jsTrim cfg.id) F } now
    ∧ ({ st with
        browserOpen := true,
        sessions := updateSession st.sessions (jsTrim cfg.id) F } : PoolState).maxActiveViews
        = st.maxActiveViews
    ∧ ({ st with
        browserOpen := true,
        sessions := updateSession st.sessions (jsTrim cfg.id) F } : PoolState).inactiveGraceMs
        = st.inactiveGraceMs := by
  refine ⟨?_, ?_, rfl, rfl⟩
  · unfold poolKeysNodup at hnd ⊢
    dsimp only
    rw [updateSession_keys]
    exact hnd
  · intro t htt
    unfold activeCount
    dsimp only
    have hT := hI2 t htt
    have hN := hI2 now (le_refl now)
    unfold activeCount at hT hN
    have hadm2 : wanted s0 now st.inactiveGraceMs = true
        ∨ st.sessions.countP (fun q => wanted q.2 now st.inactiveGraceMs)
            < st.maxActiveViews := by
      rcases hadm with hmem | hsz
      · left
        unfold activeList at hmem
        obtain ⟨s1, hlk1, hw1⟩ := mem_activeList_lookup hnd hmem
        rw [hlk1] at hlk
        injection hlk with he
        rw [he] at hw1
        exact hw1
      · right
        unfold activeCount at hsz
        exact hsz
    exact countP_update_bound st.sessions (jsTrim cfg.id) F st.inactiveGraceMs
      st.maxActiveViews t now s0 hnd hlk htt hT hN hadm2

/-- The cap invariant survives an admitted append of a fresh session,
whatever session state is appended. -/
lemma pres_after_admit_append (st : PoolState) (cfg : ViewCfg) (now : ℕ)
    (snew : SessionState)
    (hnd : poolKeysNodup st) (hI2 : InvUpto st now)
    (hadm : jsTrim cfg.id ∈ activeList st now ∨ activeCount st now < st.maxActiveViews)
    (hlk : lookupStr st.sessions (jsTrim cfg.id) = none) :
    poolKeysNodup { st with
        browserOpen := true,
        sessions := st.sessions ++ [((jsTrim cfg.id), snew)] }
    ∧ InvUpto { st with
        browserOpen := true,
        sessions := st.sessions ++ [((jsTrim cfg.id), snew)] } now
    ∧ ({ st with
        browserOpen := true,
        sessions := st.sessions ++ [((jsTrim cfg.id), snew)] } : PoolState).maxActiveViews
        = st.maxActiveViews
    ∧ ({ st with
        browserOpen := true,
        sessions := st.sessions ++ [((jsTrim cfg.id), snew)] } : PoolState).inactiveGraceMs
        = st.inactiveGraceMs := by
  have hsz : st.sessions.countP (fun q => wanted q.2 now st.inactiveGraceMs)
      < st.maxActiveViews := by
    rcases hadm with hmem | hsz
    · unfold activeList at hmem
      obtain ⟨s1, hlk1, _⟩ := mem_activeList_lookup hnd hmem
      rw [hlk1] at hlk
      cases hlk
    · unfold activeCount at hsz
      exact hsz
  refine ⟨?_, ?_, rfl, rfl⟩
  · unfold poolKeysNodup at hnd ⊢
    dsimp only
    rw [List.map_append]
    have hid := lookupStr_none_not_mem_keys hlk
    simp [List.nodup_append, hnd, hid]
  · intro t htt
    unfold activeCount
    dsimp only
    exact countP_append_bound st.sessions (jsTrim cfg.id) snew st.inactiveGraceMs
      st.maxActiveViews t now htt hsz

/-- `subscribe` preserves the cap invariant. -/
lemma subscribePool_pres (st : PoolState) (cfg : ViewCfg) (now t0 : ℕ)
    (hnd : poolKeysNodup st) (hI : InvUpto st t0) (ht : t0 ≤ now) :
    poolKeysNodup (subscribePool st cfg now).1
    ∧ InvUpto (subscribePool st cfg now).1 now
    ∧ (subscribePool st cfg now).1.maxActiveViews = st.maxActiveViews
    ∧ (subscribePool st cfg now).1.inactiveGraceMs = st.inactiveGraceMs := by
  have hI2 : InvUpto st now := fun t htt => hI t (le_trans ht htt)
  simp only [subscribePool]
  by_cases hg : (canActivatePriv st (jsTrim cfg.id) now).ok = false
  · rw [if_pos hg]
    exact ⟨hnd, hI2, rfl, rfl⟩
  · rw [if_neg hg]
    have hok : (canActivatePriv st (jsTrim cfg.id) now).ok = true := by
      cases hb : (canActivatePriv st (jsTrim cfg.id) now).ok
      · exact absurd hb hg
      · rfl
    have hadm := (canActivatePriv_ok_iff st (jsTrim cfg.id) now).mp hok
    rcases ensureSessionSt_cases st cfg with hE | ⟨s0, hlk, hE⟩ | ⟨hlk, hE⟩ <;>
      rw [hE] <;> dsimp only
    · exact ⟨hnd, hI2, rfl, rfl⟩
    · rw [updateSession_comp]
      exact pres_after_admit_update st cfg now _ s0 hnd hI2 hadm hlk
    · rw [updateSession_append,
        updateSession_of_absent st.sessions _ _ (lookupStr_none_forall hlk)]
      exact pres_after_admit_append st cfg now _ hnd hI2 hadm hlk

/-- `touchHttp` preserves the cap invariant. -/
lemma touchHttpPool_pres (st : PoolState) (cfg : ViewCfg) (now t0 : ℕ)
    (hnd : poolKeysNodup st) (hI : InvUpto st t0) (ht : t0 ≤ now) :
    poolKeysNodup (touchHttpPool st cfg now).1
    ∧ InvUpto (touchHttpPool st cfg now).1 now
    ∧ (touchHttpPool st cfg now).1.maxActiveViews = st.maxActiveViews
    ∧ (touchHttpPool st cfg now).1.inactiveGraceMs = st.inactiveGraceMs := by
  have hI2 : InvUpto st now := fun t htt => hI t (le_trans ht htt)
  simp only [touchHttpPool]
  by_cases hg : (canActivatePriv st (jsTrim cfg.id) now).ok = false
  · rw [if_pos hg]
    exact ⟨hnd, hI2, rfl, rfl⟩
  · rw [if_neg hg]
    have hok : (canActivatePriv st (jsTrim cfg.id) now).ok = true := by
      cases hb : (canActivatePriv st (jsTrim cfg.id) now).ok
      · exact absurd hb hg
      · rfl
    have hadm := (canActivatePriv_ok_iff st (jsTrim cfg.id) now).mp hok
    rcases ensureSessionSt_cases st cfg with hE | ⟨s0, hlk, hE⟩ | ⟨hlk, hE⟩ <;>
      rw [hE] <;> dsimp only
    · exact ⟨hnd, hI2, rfl, rfl⟩
    · rw [updateSession_comp]
      exact pres_after_admit_update st cfg now _ s0 hnd hI2 hadm hlk
    · rw [updateSession_append,
        updateSession_of_absent st.sessions _ _ (lookupStr_none_forall hlk)]
      exact pres_after_admit_append st cfg now _ hnd hI2 hadm hlk

/-- A matched `unsubscribe` preserves the cap invariant. -/
lemma unsubscribePool_pres (st : PoolState) (v : String) (now t0 : ℕ)
    (hnd : poolKeysNodup st) (hI : InvUpto st t0) (ht : t0 ≤ now)
    (hm : matchedUnsub st (.unsub v now) = true) :
    poolKeysNodup (unsubscribePool st v now)
    ∧ InvUpto (unsubscribePool st v now) now
    ∧ (unsubscribePool st v now).maxActiveViews = st.maxActiveViews
    ∧ (unsubscribePool st v now).inactiveGraceMs = st.inactiveGraceMs := by
  have hI2 : InvUpto st now := fun t htt => hI t (le_trans ht htt)
  simp only [unsubscribePool]
  cases hL : lookupStr st.sessions (jsTrim v) with
  | none => exact ⟨hnd, hI2, rfl, rfl⟩
  | some s0 =>
      have hsub : 1 ≤ s0.subscribers := by
        simp only [matchedUnsub] at hm
        rw [hL] at hm
        simpa using hm
      have hw : ∀ t, wanted s0 t st.inactiveGraceMs = true := by
        intro t
        unfold wanted
        simp [show 0 < s0.subscribers by omega]
      refine ⟨?_, ?_, rfl, rfl⟩
      · unfold poolKeysNodup at hnd ⊢
        dsimp only
        rw [updateSession_keys]
        exact hnd
      · intro t htt
        unfold activeCount
        dsimp only
        have hT := hI2 t htt
        unfold activeCount at hT
        exact le_trans
          (countP_updateSession_le_of_true st.sessions (jsTrim v) _ _ s0 hnd hL (hw t)) hT

/-- The maintenance tick preserves the cap invariant: browser close and
per-session ticks never change wantedness. -/
lemma tickPool_pres (st : PoolState) (now t0 : ℕ)
    (hnd : poolKeysNodup st) (hI : InvUpto st t0) (ht : t0 ≤ now) :
    poolKeysNodup (tickPool st now) ∧ InvUpto (tickPool st now) now
    ∧ (tickPool st now).maxActiveViews = st.maxActiveViews
    ∧ (tickPool st now).inactiveGraceMs = st.inactiveGraceMs := by
  have hI2 : InvUpto st now := fun t htt => hI t (le_trans ht htt)
  have hkeys : (tickPool st now).sessions.map Prod.fst = st.sessions.map Prod.fst := by
    simp only [tickPool, closeBrowserPool]
    repeat' split
    all_goals dsimp only
    all_goals first
      | rfl
      | rw [map_fst_entry_map, map_fst_entry_map]
      | rw [map_fst_entry_map]
  have hmax : (tickPool st now).maxActiveViews = st.maxActiveViews := by
    simp only [tickPool, closeBrowserPool]
    repeat' split
    all_goals rfl
  have hgr : (tickPool st now).inactiveGraceMs = st.inactiveGraceMs := by
    simp only [tickPool, closeBrowserPool]
    repeat' split
    all_goals rfl
  have hcnt : ∀ t, activeCount (tickPool st now) t = activeCount st t := by
    intro t
    unfold activeCount
    simp only [tickPool, closeBrowserPool]
    repeat' split
    all_goals dsimp only
    all_goals first
      | rfl
      | rw [countP_wanted_mapTick, countP_wanted_mapStop]
      | rw [countP_wanted_mapTick]
      | rw [countP_wanted_mapStop]
  refine ⟨?_, ?_, hmax, hgr⟩
  · unfold poolKeysNodup at hnd ⊢
    rw [hkeys]
    exact hnd
  · intro t htt
    rw [hcnt t, hmax]
    exact hI2 t htt

/-- Every timed operation preserves the cap invariant. -/
lemma applyOp_pres (st : PoolState) (op : PoolOp) (t0 : ℕ)
    (hnd : poolKeysNodup st) (hI : InvUpto st t0) (ht : t0 ≤ op.time)
    (hm : matchedUnsub st op = true) :
    poolKeysNodup (applyOp st op) ∧ InvUpto (applyOp st op) op.time
    ∧ (applyOp st op).maxActiveViews = st.maxActiveViews
    ∧ (applyOp st op).inactiveGraceMs = st.inactiveGraceMs := by
  cases op with
  | sub cfg n => exact subscribePool_pres st cfg n t0 hnd hI ht
  | unsub v n => exact unsubscribePool_pres st v n t0 hnd hI ht hm
  | touch cfg n => exact touchHttpPool_pres st cfg n t0 hnd hI ht
  | tick n => exact tickPool_pres st n t0 hnd hI ht

/-- A valid trace preserves the cap invariant to its end time. -/
lemma runOps_pres (ops : List PoolOp) : ∀ (st : PoolState) (t0 : ℕ),
    poolKeysNodup st → InvUpto st t0 → validOpsB t0 st ops = true →
    poolKeysNodup (runOps st ops) ∧ InvUpto (runOps st ops) (endTime t0 ops)
    ∧ (runOps st ops).maxActiveViews = st.maxActiveViews
    ∧ (runOps st ops).inactiveGraceMs = st.inactiveGraceMs := by
  induction ops with
  | nil =>
      intro st t0 hnd hI _
      exact ⟨hnd, hI, rfl, rfl⟩
  | cons op rest ih =>
      intro st t0 hnd hI hv
      simp only [validOpsB, Bool.and_eq_true, decide_eq_true_eq] at hv
      obtain ⟨⟨ht, hm⟩, hv2⟩ := hv
      have hstep := applyOp_pres st op t0 hnd hI ht hm
      have hrest := ih (applyOp st op) op.time hstep.1 hstep.2.1 hv2
      simp only [runOps, endTime]
      exact ⟨hrest.1, hrest.2.1, hrest.2.2.1.trans hstep.2.2.1,
        hrest.2.2.2.trans hstep.2.2.2⟩

/-- C1 counterexample: with `maxActiveViews = 1` the trace `cexOps`
(monotone timestamps, only pool operations) ends with two wanted views —
the unmatched unsubscribe of `A` refreshes its `lastInactiveTs` and
revives it past the cap (src/lib/renderer.js lines 88-94 and 103-108). -/
theorem C1_active_view_cap_counterexample :
    timesMonoB 0 cexOps = true
    ∧ endTime 0 cexOps = 7000
    ∧ min 10 (max 1 1) < (activeList (runOps cexPool cexOps) 7000).length := by
  refine ⟨by decide, by decide, by decide⟩

/-- C1 (amended): for every valid configuration (`maxActiveViews ≥ 1`)
and every time-monotone sequence of subscribe, unsubscribe, touch-HTTP
and maintenance-tick operations in which each unsubscribe targets a
session that still has a subscriber, the number of wanted view-ids never
exceeds `min(10, max(1, maxActiveViews))`, at the trace's end and at all
later times (src/lib/renderer.js lines 530-544, 586-625, 657-676). -/
theorem C1_active_view_cap (cmin cmax ar : ℕ) (cb : Bool) (m grace cpai cbai : ℕ)
    (ops : List PoolOp) (t0 t : ℕ)
    (hm : 1 ≤ m)
    (hv : validOpsB t0 (mkPool cmin cmax ar cb m grace cpai cbai) ops = true)
    (ht : endTime t0 ops ≤ t) :
    (activeList (runOps (mkPool cmin cmax ar cb m grace cpai cbai) ops) t).length
      ≤ min 10 (max 1 m) := by
  have hbase : InvUpto (mkPool cmin cmax ar cb m grace cpai cbai) t0 := by
    intro t1 _
    simp [activeCount, mkPool]
  have hnd0 : poolKeysNodup (mkPool cmin cmax ar cb m grace cpai cbai) := by
    simp [poolKeysNodup, mkPool]
  have h := runOps_pres ops _ t0 hnd0 hbase hv
  have hcap : (mkPool cmin cmax ar cb m grace cpai cbai).maxActiveViews
      = min 10 (max 1 m) := by
    simp only [mkPool]
    rw [if_neg (by omega : ¬ m = 0)]
  rw [activeList_length]
  calc activeCount (runOps (mkPool cmin cmax ar cb m grace cpai cbai) ops) t
      ≤ (runOps (mkPool cmin cmax ar cb m grace cpai cbai) ops).maxActiveViews :=
        h.2.1 t ht
    _ = min 10 (max 1 m) := by rw [h.2.2.1, hcap]

/-- C1 witness: a concrete valid trace (subscribe, touch, matched
unsubscribe, tick) stays within the single-view cap. -/
theorem C1_active_view_cap_witness :
    (1 : ℕ) ≤ 1
    ∧ validOpsB 0 (mkPool 200 2000 0 false 1 5000 15000 30000)
        [PoolOp.sub { id := "A", url := "http://x/a", busyFps := 10 } 0,
         PoolOp.touch { id := "A", url := "http://x/a", busyFps := 10 } 1,
         PoolOp.unsub "A" 2, PoolOp.tick 3] = true
    ∧ endTime 0
        [PoolOp.sub { id := "A", url := "http://x/a", busyFps := 10 } 0,
         PoolOp.touch { id := "A", url := "http://x/a", busyFps := 10 } 1,
         PoolOp.unsub "A" 2, PoolOp.tick 3] ≤ 3
    ∧ (activeList (runOps (mkPool 200 2000 0 false 1 5000 15000 30000)
        [PoolOp.sub { id := "A", url := "http://x/a", busyFps := 10 } 0,
         PoolOp.touch { id := "A", url := "http://x/a", busyFps := 10 } 1,
         PoolOp.unsub "A" 2, PoolOp.tick 3]) 3).length ≤ min 10 (max 1 1) :=
  ⟨by decide, by decide, by decide,
   C1_active_view_cap 200 2000 0 false 1 5000 15000 30000
     [PoolOp.sub { id := "A", url := "http://x/a", busyFps := 10 } 0,
      PoolOp.touch { id := "A", url := "http://x/a", busyFps := 10 } 1,
      PoolOp.unsub "A" 2, PoolOp.tick 3] 0 3 (by decide) (by decide) (by decide)⟩
